import Mathlib

/-!
Shallow embedding of the HRTF module of rg3d-sound (src/hrtf.rs) and proofs
about its loader, bilinear sampler, overlap-save convolution and block
renderer. Complex f32 samples are modelled as pairs of rationals; the FFT
planner of the external rustfft crate, the f32 bit decoding, and the geometry
routines of the external rg3d-core crate are abstracted as explicit function
parameters, since only their shapes (not their numerics) decide the claims.
-/

namespace RgSound

/-- Model of a Complex value: real and imaginary part as rationals. -/
abbrev Cx : Type := ℚ × ℚ

/-- Complex addition. -/
def cadd (a b : Cx) : Cx := (a.1 + b.1, a.2 + b.2)

/-- Complex multiplication. -/
def cmul (a b : Cx) : Cx := (a.1 * b.1 - a.2 * b.2, a.1 * b.2 + a.2 * b.1)

/-- Multiplication of a Complex value with a real scalar. -/
def csmul (a : Cx) (k : ℚ) : Cx := (a.1 * k, a.2 * k)

/-- The Complex zero. -/
def czero : Cx := (0, 0)

/-- Model of rg3d-core Vec3. -/
structure Vec3 where
  x : ℚ
  y : ℚ
  z : ℚ
  deriving DecidableEq

/-- Vec3::ZERO. -/
def Vec3.zeroV : Vec3 := ⟨0, 0, 0⟩

/-- Vec3::scale. -/
def Vec3.scale (v : Vec3) (k : ℚ) : Vec3 := ⟨v.x * k, v.y * k, v.z * k⟩

/-- Model of rg3d-core Ray: origin and direction. -/
structure RayT where
  origin : Vec3
  dir : Vec3
  deriving DecidableEq

/-- External geometry collaborators from the rg3d-core crate (not part of this
repository): ray construction from two points, ray-triangle intersection and
barycentric coordinates. Modelled as an abstract interface because their
sources are outside this repository; the claims depend only on how hrtf.rs
consumes their results. -/
structure Geom where
  fromTwoPoints : Vec3 → Vec3 → Option RayT
  triangleIntersection : RayT → Vec3 × Vec3 × Vec3 → Option Vec3
  barycentric : Vec3 → Vec3 → Vec3 → Vec3 → ℚ × ℚ × ℚ

/-- Single point of the HRTF sphere (HrtfPoint). -/
structure HrtfPoint where
  pos : Vec3
  left_hrtf : List Cx
  right_hrtf : List Cx
  deriving DecidableEq

/-- A triangle of the sphere mesh (Face): three indices into the point list. -/
structure Face where
  a : Nat
  b : Nat
  c : Nat
  deriving DecidableEq

/-- The HRTF sphere (HrtfSphere). -/
structure HrtfSphere where
  length : Nat
  points : List HrtfPoint
  faces : List Face
  deriving DecidableEq

/-- The inner loops of the hit branch of sample_bilinear: for i in 0..len push
a[i]*ka + b[i]*kb + c[i]*kc, with len the length of the first list. Indexing
b and c panics (modelled as none) when those lists are shorter than la. The
indexed loop is rendered as a simultaneous structural traversal. -/
def blend_lists : List Cx → List Cx → List Cx → ℚ → ℚ → ℚ → Option (List Cx)
  | [], _, _, _, _, _ => some []
  | a :: la, b :: lb, c :: lc, ka, kb, kc =>
      (blend_lists la lb lc ka kb kc).map
        (fun r => cadd (cadd (csmul a ka) (csmul b kb)) (csmul c kc) :: r)
  | _ :: _, _, _, _, _, _ => none

/-- The copy loops of the degenerate branch of sample_bilinear: for i in
0..len push l[i]; indexing panics (none) when len exceeds the list. -/
def first_point_copy : List Cx → Nat → Option (List Cx)
  | _, 0 => some []
  | [], _ + 1 => none
  | x :: l, n + 1 => (first_point_copy l n).map (fun r => x :: r)

/-- One iteration of the face loop of sample_bilinear: unwrap the three corner
points (panic, i.e. none, on an out-of-bounds face index), then on an
intersection rebuild both output buffers with the barycentric blend, else keep
the buffers as they are. -/
def sample_face_step (g : Geom) (s : HrtfSphere) (ray : RayT)
    (bufs : List Cx × List Cx) (face : Face) : Option (List Cx × List Cx) := do
  let a ← s.points[face.a]?
  let b ← s.points[face.b]?
  let c ← s.points[face.c]?
  match g.triangleIntersection ray (a.pos, b.pos, c.pos) with
  | some p =>
      let k := g.barycentric p a.pos b.pos c.pos
      let lh ← blend_lists a.left_hrtf b.left_hrtf c.left_hrtf k.1 k.2.1 k.2.2
      let rh ← blend_lists a.right_hrtf b.right_hrtf c.right_hrtf k.1 k.2.1 k.2.2
      pure (lh, rh)
  | none => pure bufs

/-- HrtfSphere::sample_bilinear. Builds a ray from the origin to dir scaled by
10; iterates over ALL faces, rebuilding the output buffers at every
intersection (there is no break in the source loop); on a degenerate ray falls
back to copying the first point (unwrap panics, modelled none, on an empty
point list). Returns the final contents of the two output buffers. -/
def sample_bilinear (g : Geom) (s : HrtfSphere) (left_hrtf right_hrtf : List Cx)
    (dir : Vec3) : Option (List Cx × List Cx) :=
  match g.fromTwoPoints Vec3.zeroV (dir.scale 10) with
  | some ray => s.faces.foldlM (sample_face_step g s ray) (left_hrtf, right_hrtf)
  | none =>
      match s.points with
      | [] => none
      | pt :: _ => do
          let len := pt.left_hrtf.length
          let lh ← first_point_copy pt.left_hrtf len
          let rh ← first_point_copy pt.right_hrtf len
          pure (lh, rh)

/-- Whether a face is hit by the ray: its three indices resolve and the
triangle intersection is non-empty. -/
def face_hit (g : Geom) (s : HrtfSphere) (ray : RayT) (f : Face) : Bool :=
  match s.points[f.a]?, s.points[f.b]?, s.points[f.c]? with
  | some a, some b, some c => (g.triangleIntersection ray (a.pos, b.pos, c.pos)).isSome
  | _, _, _ => false

/-- The barycentric blend sample_bilinear computes at one given face. -/
def blend_face (g : Geom) (s : HrtfSphere) (ray : RayT) (f : Face) :
    Option (List Cx × List Cx) := do
  let a ← s.points[f.a]?
  let b ← s.points[f.b]?
  let c ← s.points[f.c]?
  let p ← g.triangleIntersection ray (a.pos, b.pos, c.pos)
  let k := g.barycentric p a.pos b.pos c.pos
  let lh ← blend_lists a.left_hrtf b.left_hrtf c.left_hrtf k.1 k.2.1 k.2.2
  let rh ← blend_lists a.right_hrtf b.right_hrtf c.right_hrtf k.1 k.2.1 k.2.2
  pure (lh, rh)

/-! ### Loader (HrtfSphere::new and helpers) -/

/-- All possible errors during HRIR sphere loading (HrtfError). The payload of
the I/O variant is dropped; the other payloads are kept. -/
inductive HrtfError where
  | ioError : HrtfError
  | invalidSampleRate : Nat → Nat → HrtfError
  | invalidFileFormat : HrtfError
  | invalidLength : Nat → HrtfError
  deriving DecidableEq

/-- Outcome of a call to the loader: a sphere, a typed error, or a panic
(an index out of bounds inside the loader, which Rust turns into an abort,
not into a returned error). -/
inductive LoadRes where
  | ok : HrtfSphere → LoadRes
  | err : HrtfError → LoadRes
  | panic : LoadRes
  deriving DecidableEq

/-- Reader::read_exact on a byte stream: consumes exactly n bytes or fails
with an I/O error (modelled none). -/
def read_exact (n : Nat) (bs : List Nat) : Option (List Nat × List Nat) :=
  if n ≤ bs.length then some (bs.take n, bs.drop n) else none

/-- read_u32::LittleEndian: consumes four bytes, yielding their
little-endian value. -/
def read_u32 (bs : List Nat) : Option (Nat × List Nat) :=
  match bs with
  | b0 :: b1 :: b2 :: b3 :: rest =>
      some (b0 + 256 * (b1 + 256 * (b2 + 256 * b3)), rest)
  | _ => none

/-- read_f32::LittleEndian: consumes four bytes; the resulting f32 is kept as
its raw 32-bit word, decoded later by the abstract decode parameter. -/
def read_f32 (bs : List Nat) : Option (Nat × List Nat) := read_u32 bs

/-- read_hrir: reads len f32 samples, each becoming Complex::new(v, 0.0). The
decode parameter models the IEEE-754 interpretation of the 32-bit word. -/
def read_hrir (decode : Nat → ℚ) : Nat → List Nat → Option (List Cx × List Nat)
  | 0, bs => some ([], bs)
  | n + 1, bs => do
      let r ← read_f32 bs
      let rest ← read_hrir decode n r.2
      pure ((decode r.1, 0) :: rest.1, rest.2)

/-- The index-reading loop of read_faces: index_count u32 values. -/
def read_indices : Nat → List Nat → Option (List Nat × List Nat)
  | 0, bs => some ([], bs)
  | n + 1, bs => do
      let r ← read_u32 bs
      let rest ← read_indices n r.2
      pure (r.1 :: rest.1, rest.2)

/-- The chunks(3) grouping of read_faces. A trailing chunk of fewer than three
indices makes the source index expressions f[1] or f[2] panic (none). -/
def chunks_to_faces : List Nat → Option (List Face)
  | [] => some []
  | a :: b :: c :: rest => (chunks_to_faces rest).map (fun fs => ⟨a, b, c⟩ :: fs)
  | _ => none

/-- read_faces: reads index_count u32 indices then groups them in threes.
The outer Option is the I/O error of reading; the inner Option is the panic
of an incomplete final chunk. -/
def read_faces (index_count : Nat) (bs : List Nat) :
    Option (Option (List Face) × List Nat) := do
  let r ← read_indices index_count bs
  pure (chunks_to_faces r.1, r.2)

/-- make_hrtf: pads the HRIR with zeros up to pad_length and forward-transforms
it. The FFT of the rustfft planner is the abstract fft parameter; the output
buffer handed to the planner has length pad_length. -/
def make_hrtf (fft : List Cx → List Cx) (hrir : List Cx) (pad_length : Nat) : List Cx :=
  fft (hrir ++ List.replicate (pad_length - hrir.length) czero)

/-- The per-vertex loop of HrtfSphere::new: position (3 f32), then the two
HRIRs of the declared length, each padded and transformed by make_hrtf. -/
def read_vertices (decode : Nat → ℚ) (fft : List Cx → List Cx)
    (length pad_length : Nat) :
    Nat → List Nat → Option (List HrtfPoint × List Nat)
  | 0, bs => some ([], bs)
  | n + 1, bs => do
      let rx ← read_f32 bs
      let ry ← read_f32 rx.2
      let rz ← read_f32 ry.2
      let lh ← read_hrir decode length rz.2
      let rh ← read_hrir decode length lh.2
      let rest ← read_vertices decode fft length pad_length n rh.2
      pure (⟨⟨decode rx.1, decode ry.1, decode rz.1⟩,
             make_hrtf fft lh.1 pad_length, make_hrtf fft rh.1 pad_length⟩ :: rest.1,
            rest.2)

/-- Tail of HrtfSphere::new after the header words are read: faces, then
vertices, then building the sphere (leftover bytes are dropped). -/
def load_after_header (decode : Nat → ℚ) (fft : List Cx → List Cx)
    (HRTF_BLOCK_LEN length vertex_count index_count : Nat) (bs : List Nat) : LoadRes :=
  match read_faces index_count bs with
  | none => .err .ioError
  | some (none, _) => .panic
  | some (some faces, bs6) =>
    match read_vertices decode fft length (HRTF_BLOCK_LEN + length - 1) vertex_count bs6 with
    | none => .err .ioError
    | some (points, _) => .ok ⟨length, points, faces⟩

/-- HrtfSphere::new over a byte stream. SAMPLE_RATE models device::SAMPLE_RATE
and HRTF_BLOCK_LEN models Context::HRTF_BLOCK_LEN (constants of modules not
under this crate's hrtf.rs; passed as parameters). Note the magic check of the
source combines the four comparisons with logical AND, so it rejects only a
file in which EVERY one of the four bytes differs from its expected value. -/
def hrtfSphereNew (decode : Nat → ℚ) (fft : List Cx → List Cx)
    (SAMPLE_RATE HRTF_BLOCK_LEN : Nat) (bs : List Nat) : LoadRes :=
  match read_exact 4 bs with
  | none => .err .ioError
  | some (magic, bs1) =>
    if magic.getD 0 0 ≠ 72 ∧ magic.getD 1 0 ≠ 82 ∧ magic.getD 2 0 ≠ 73 ∧ magic.getD 3 0 ≠ 82 then
      .err .invalidFileFormat
    else
      match read_u32 bs1 with
      | none => .err .ioError
      | some (sample_rate, bs2) =>
        if sample_rate ≠ SAMPLE_RATE then
          .err (.invalidSampleRate sample_rate SAMPLE_RATE)
        else
          match read_u32 bs2 with
          | none => .err .ioError
          | some (length, bs3) =>
            if length = 0 then .err (.invalidLength length)
            else
              match read_u32 bs3 with
              | none => .err .ioError
              | some (vertex_count, bs4) =>
                match read_u32 bs4 with
                | none => .err .ioError
                | some (index_count, bs5) =>
                    load_after_header decode fft HRTF_BLOCK_LEN length vertex_count
                      index_count bs5

/-! ### Overlap-save convolution (copy_replace, convolve_overlap_save) -/

/-- The reset of prev_samples at the head of copy_replace: a fresh all-zero
tail whenever the stored tail does not have the expected segment length
(in particular on the first call, where it is empty). -/
def tail_or_zeros (prev_samples : List ℚ) (segment_len : Nat) : List ℚ :=
  if prev_samples.length ≠ segment_len then List.replicate segment_len 0 else prev_samples

/-- Contents of the working buffer after the first loop of copy_replace: the
tail of the previous call written over the first segment_len slots, the
caller's raw samples untouched after them. -/
def fft_time_buffer (prev_samples : List ℚ) (raw_buffer : List Cx) (segment_len : Nat) :
    List Cx :=
  ((tail_or_zeros prev_samples segment_len).map fun p => ((p, 0) : Cx))
    ++ raw_buffer.drop segment_len

/-- copy_replace: writes the previous tail into the head of the buffer, then
saves the trailing segment_len real parts of the (still un-convolved) buffer
as the next tail. The slice raw_buffer[..segment_len] panics (none) when the
buffer is shorter than segment_len. Returns (new prev_samples, new buffer). -/
def copy_replace (prev_samples : List ℚ) (raw_buffer : List Cx) (segment_len : Nat) :
    Option (List ℚ × List Cx) :=
  if segment_len ≤ raw_buffer.length then
    let raw1 := fft_time_buffer prev_samples raw_buffer segment_len
    let last_start := raw_buffer.length - segment_len
    some ((raw1.drop last_start).map Prod.fst, raw1)
  else none

/-- The frequency-domain multiply loop: out_buffer.iter_mut().zip(hrtf) leaves
entries of the output past the length of hrtf untouched. -/
def spectral_multiply (out_buffer hrtf : List Cx) : List Cx :=
  List.zipWith cmul out_buffer hrtf ++ out_buffer.drop hrtf.length

/-- Outcome of convolve_overlap_save: the new contents of (in_buffer,
out_buffer, prev_samples), or the failure of its assert_eq, or another
panic (the slice panic inside copy_replace). -/
inductive ConvRes where
  | ok : List Cx × List Cx × List ℚ → ConvRes
  | assertFail : ConvRes
  | panic : ConvRes
  deriving DecidableEq

/-- convolve_overlap_save: asserts that the impulse spectrum and the working
buffer have the same length, runs copy_replace, forward-transforms the
working buffer into the out buffer, multiplies by the impulse spectrum, and
inverse-transforms back into the working buffer. fft and ifft model the
planners passed by the caller. -/
def convolve_overlap_save (fft ifft : List Cx → List Cx)
    (in_buffer out_buffer : List Cx) (hrtf : List Cx) (hrtf_len : Nat)
    (prev_samples : List ℚ) : ConvRes :=
  if hrtf.length = in_buffer.length then
    match copy_replace prev_samples in_buffer hrtf_len with
    | none => .panic
    | some (prev1, in1) =>
      let out1 := fft in1
      let out2 := spectral_multiply out1 hrtf
      let in2 := ifft out2
      .ok (in2, out2, prev1)
  else .assertFail

/-- get_pad_len: the padded working length, HRTF_BLOCK_LEN + hrtf_len - 1. -/
def get_pad_len (HRTF_BLOCK_LEN hrtf_len : Nat) : Nat :=
  HRTF_BLOCK_LEN + hrtf_len - 1

/-! ### Block renderer (HrtfRenderer::render_source, spatial branch) -/

/-- Modelled from the spec: linear interpolation with parameter t
(crate::math::lerpf, whose source file is not under src/). -/
def lerpf (a b t : ℚ) : ℚ := a + (b - a) * t

/-- Modelled from the spec: componentwise linear interpolation of sampling
vectors (rg3d-core Vec3::lerp, external to this repository). -/
def Vec3.lerp (v w : Vec3) (t : ℚ) : Vec3 :=
  ⟨lerpf v.x w.x t, lerpf v.y w.y t, lerpf v.z w.z t⟩

/-- Zip-style in-place overwrite: the first min(dst, src) entries of dst are
replaced by src, the rest of dst is kept. -/
def overwriteBy (dst src : List Cx) : List Cx :=
  src.take dst.length ++ dst.drop src.length

/-- get_raw_samples: asserts equal slice lengths, then copies the left channel
of the source frame samples, starting at offset, into both slices as purely
real values. The slice frame[offset..] panics (none) when offset exceeds the
frame length. -/
def get_raw_samples (frame : List (ℚ × ℚ)) (offset : Nat)
    (left right : List Cx) : Option (List Cx × List Cx) :=
  if left.length = right.length then
    if offset ≤ frame.length then
      let src := (frame.drop offset).map fun s => ((s.1, 0) : Cx)
      some (overwriteBy left src, overwriteBy right src)
    else none
  else none

/-- The mixing loop at the end of one render sub-block: each slot of the output
slice gains processed.re * k on its channel; the zip truncates at the
shortest of the three lists. -/
def addIntoOut (out_slice : List (ℚ × ℚ)) (left_payload right_payload : List Cx)
    (k : ℚ) : List (ℚ × ℚ) :=
  List.zipWith (fun o pr => (o.1 + pr.1.1 * k, o.2 + pr.2.1 * k))
      out_slice (left_payload.zip right_payload)
    ++ out_slice.drop (min left_payload.length right_payload.length)

/-- Per-source state persisted on a SpatialSource between render calls. -/
structure SpatialState where
  prev_sampling_vector : Vec3
  prev_distance_gain : Option ℚ
  prev_left_samples : List ℚ
  prev_right_samples : List ℚ
  deriving DecidableEq

/-- Scratch state of the HrtfRenderer: the four working buffers and the two
most recently sampled spectra. -/
structure RenderState where
  left_in_buffer : List Cx
  right_in_buffer : List Cx
  left_out_buffer : List Cx
  right_out_buffer : List Cx
  left_hrtf : List Cx
  right_hrtf : List Cx
  deriving DecidableEq

/-- One iteration (one sub-block) of the loop of render_source for a spatial
source. new_v and new_g are the sampling vector and distance gain computed
from the listener before the loop (external collaborators). A none models one
of the slice or unwrap panics of the source. -/
def render_step (fft ifft : List Cx → List Cx) (g : Geom)
    (HRTF_BLOCK_LEN HRTF_INTERPOLATION_STEPS : Nat) (sphere : HrtfSphere)
    (frame : List (ℚ × ℚ)) (new_v : Vec3) (new_g : ℚ)
    (st : RenderState × SpatialState × List (ℚ × ℚ)) (step : Nat) :
    Option (RenderState × SpatialState × List (ℚ × ℚ)) :=
  let rs := st.1
  let sp := st.2.1
  let out_buf := st.2.2
  let next := step + 1
  if next * HRTF_BLOCK_LEN ≤ out_buf.length then
    let out := (out_buf.take (next * HRTF_BLOCK_LEN)).drop (step * HRTF_BLOCK_LEN)
    let t : ℚ := (next : ℚ) / (HRTF_INTERPOLATION_STEPS : ℚ)
    let sampling_vector := sp.prev_sampling_vector.lerp new_v t
    match sample_bilinear g sphere rs.left_hrtf rs.right_hrtf sampling_vector with
    | none => none
    | some (lh, rh) =>
      let hrtf_len := sphere.length - 1
      if hrtf_len ≤ rs.left_in_buffer.length ∧ hrtf_len ≤ rs.right_in_buffer.length then
        match get_raw_samples frame (step * HRTF_BLOCK_LEN)
            (rs.left_in_buffer.drop hrtf_len) (rs.right_in_buffer.drop hrtf_len) with
        | none => none
        | some (lslice, rslice) =>
          let lin := rs.left_in_buffer.take hrtf_len ++ lslice
          let rin := rs.right_in_buffer.take hrtf_len ++ rslice
          match convolve_overlap_save fft ifft lin rs.left_out_buffer lh hrtf_len
              sp.prev_left_samples with
          | .ok (lin2, lout2, pls) =>
            match convolve_overlap_save fft ifft rin rs.right_out_buffer rh hrtf_len
                sp.prev_right_samples with
            | .ok (rin2, rout2, prs) =>
              let pad_length := get_pad_len HRTF_BLOCK_LEN sphere.length
              let distance_gain := lerpf (sp.prev_distance_gain.getD new_g) new_g t
              let k := distance_gain / (pad_length : ℚ)
              if hrtf_len ≤ lin2.length ∧ hrtf_len ≤ rin2.length then
                let left_payload := lin2.drop hrtf_len
                let right_payload := rin2.drop hrtf_len
                let out1 := addIntoOut out left_payload right_payload k
                let out_buf1 := out_buf.take (step * HRTF_BLOCK_LEN) ++ out1
                    ++ out_buf.drop (next * HRTF_BLOCK_LEN)
                some (⟨lin2, rin2, lout2, rout2, lh, rh⟩,
                      ⟨sp.prev_sampling_vector, sp.prev_distance_gain, pls, prs⟩,
                      out_buf1)
              else none
            | _ => none
          | _ => none
      else none
  else none

/-- The spatial branch of HrtfRenderer::render_source: the sub-block loop over
HRTF_INTERPOLATION_STEPS steps, followed by storing the newly computed
sampling vector and distance gain as the previous values of the source. -/
def render_source_spatial (fft ifft : List Cx → List Cx) (g : Geom)
    (HRTF_BLOCK_LEN HRTF_INTERPOLATION_STEPS : Nat) (sphere : HrtfSphere)
    (frame : List (ℚ × ℚ)) (new_v : Vec3) (new_g : ℚ)
    (rs : RenderState) (sp : SpatialState) (out_buf : List (ℚ × ℚ)) :
    Option (RenderState × SpatialState × List (ℚ × ℚ)) := do
  let res ← (List.range HRTF_INTERPOLATION_STEPS).foldlM
      (render_step fft ifft g HRTF_BLOCK_LEN HRTF_INTERPOLATION_STEPS sphere frame new_v new_g)
      (rs, sp, out_buf)
  pure (res.1,
        { res.2.1 with prev_sampling_vector := new_v, prev_distance_gain := some new_g },
        res.2.2)

/-! ### Store invariants and sampler lemmas -/

/-- Store invariant: every point's two spectra have the same length L. -/
abbrev UniformLens (s : HrtfSphere) (L : Nat) : Prop :=
  ∀ p ∈ s.points, p.left_hrtf.length = L ∧ p.right_hrtf.length = L

/-- Store invariant: every face's three indices are within the point list. -/
abbrev ValidFaces (s : HrtfSphere) : Prop :=
  ∀ f ∈ s.faces, f.a < s.points.length ∧ f.b < s.points.length ∧ f.c < s.points.length

lemma first_point_copy_take (l : List Cx) (n : Nat) (h : n ≤ l.length) :
    first_point_copy l n = some (l.take n) := by
  induction l generalizing n with
  | nil =>
    cases n with
    | zero => rfl
    | succ m => simp at h
  | cons x xs ih =>
    cases n with
    | zero => rfl
    | succ m => simp [first_point_copy, ih m (by simpa using h)]

lemma blend_lists_isSome (la lb lc : List Cx) (ka kb kc : ℚ)
    (hb : la.length ≤ lb.length) (hc : la.length ≤ lc.length) :
    ∃ r, blend_lists la lb lc ka kb kc = some r ∧ r.length = la.length := by
  induction la generalizing lb lc with
  | nil => exact ⟨[], rfl, rfl⟩
  | cons a la ih =>
    cases lb with
    | nil => simp at hb
    | cons b lb =>
      cases lc with
      | nil => simp at hc
      | cons c lc =>
        obtain ⟨r, hr, hlen⟩ := ih lb lc (by simpa using hb) (by simpa using hc)
        exact ⟨cadd (cadd (csmul a ka) (csmul b kb)) (csmul c kc) :: r,
          by simp [blend_lists, hr], by simp [hlen]⟩

lemma sample_face_step_no_hit (g : Geom) (s : HrtfSphere) (ray : RayT)
    (bufs : List Cx × List Cx) (f : Face)
    (ha : f.a < s.points.length) (hb : f.b < s.points.length) (hc : f.c < s.points.length)
    (hmiss : face_hit g s ray f = false) :
    sample_face_step g s ray bufs f = some bufs := by
  have hga := List.getElem?_eq_getElem ha
  have hgb := List.getElem?_eq_getElem hb
  have hgc := List.getElem?_eq_getElem hc
  have hnone : g.triangleIntersection ray
      (s.points[f.a].pos, s.points[f.b].pos, s.points[f.c].pos) = none := by
    have h2 := hmiss
    rw [face_hit, hga, hgb, hgc] at h2
    simpa [Option.isSome_iff_exists] using h2
  simp [sample_face_step, hga, hgb, hgc, hnone]

lemma sample_face_step_hit (g : Geom) (s : HrtfSphere) (ray : RayT)
    (bufs : List Cx × List Cx) (f : Face) (L : Nat) (hL : UniformLens s L)
    (ha : f.a < s.points.length) (hb : f.b < s.points.length) (hc : f.c < s.points.length)
    (hhit : face_hit g s ray f = true) :
    sample_face_step g s ray bufs f = blend_face g s ray f ∧
      ∃ r, blend_face g s ray f = some r ∧ r.1.length = L ∧ r.2.length = L := by
  have hga := List.getElem?_eq_getElem ha
  have hgb := List.getElem?_eq_getElem hb
  have hgc := List.getElem?_eq_getElem hc
  have hmemA : s.points[f.a] ∈ s.points := List.getElem_mem ha
  have hmemB : s.points[f.b] ∈ s.points := List.getElem_mem hb
  have hmemC : s.points[f.c] ∈ s.points := List.getElem_mem hc
  obtain ⟨p, hp⟩ : ∃ p, g.triangleIntersection ray
      (s.points[f.a].pos, s.points[f.b].pos, s.points[f.c].pos) = some p := by
    have h2 := hhit
    rw [face_hit, hga, hgb, hgc] at h2
    simpa [Option.isSome_iff_exists] using h2
  obtain ⟨hal, har⟩ := hL _ hmemA
  obtain ⟨hbl, hbr⟩ := hL _ hmemB
  obtain ⟨hcl, hcr⟩ := hL _ hmemC
  set k := g.barycentric p s.points[f.a].pos s.points[f.b].pos s.points[f.c].pos with hk
  obtain ⟨rl, hrl, hrllen⟩ := blend_lists_isSome s.points[f.a].left_hrtf
      s.points[f.b].left_hrtf s.points[f.c].left_hrtf
      k.1 k.2.1 k.2.2 (by rw [hal, hbl]) (by rw [hal, hcl])
  obtain ⟨rr, hrr, hrrlen⟩ := blend_lists_isSome s.points[f.a].right_hrtf
      s.points[f.b].right_hrtf s.points[f.c].right_hrtf
      k.1 k.2.1 k.2.2 (by rw [har, hbr]) (by rw [har, hcr])
  constructor
  · simp [sample_face_step, blend_face, hga, hgb, hgc, hp, ← hk, hrl, hrr]
  · refine ⟨(rl, rr), ?_, by simpa using hrllen.trans hal, by simpa using hrrlen.trans har⟩
    simp [blend_face, hga, hgb, hgc, hp, ← hk, hrl, hrr]

lemma sample_fold_characterization (g : Geom) (s : HrtfSphere) (ray : RayT)
    (L : Nat) (hL : UniformLens s L) (l : List Face)
    (hv : ∀ f ∈ l, f.a < s.points.length ∧ f.b < s.points.length ∧ f.c < s.points.length)
    (bufs : List Cx × List Cx) :
    l.foldlM (sample_face_step g s ray) bufs =
      match (l.filter (face_hit g s ray)).getLast? with
      | none => some bufs
      | some f => blend_face g s ray f := by
  induction l generalizing bufs with
  | nil => rfl
  | cons f fs ih =>
    obtain ⟨ha, hb, hc⟩ := hv f (List.mem_cons_self f fs)
    have hv' : ∀ f' ∈ fs, f'.a < s.points.length ∧ f'.b < s.points.length ∧
        f'.c < s.points.length := fun f' hf' => hv f' (List.mem_cons_of_mem f hf')
    by_cases hh : face_hit g s ray f = true
    · obtain ⟨hstep, r, hr, -, -⟩ := sample_face_step_hit g s ray bufs f L hL ha hb hc hh
      rw [List.foldlM_cons, hstep, hr]
      show fs.foldlM (sample_face_step g s ray) r = _
      rw [ih hv' r, List.filter_cons_of_pos hh]
      cases hcase : (fs.filter (face_hit g s ray)) with
      | nil => simp [hcase, hr]
      | cons f2 fs2 =>
        cases hgl : (f2 :: fs2).getLast? with
        | none =>
          rw [List.getLast?_eq_none_iff] at hgl
          exact absurd hgl (List.cons_ne_nil f2 fs2)
        | some y => simp [hgl, List.getLast?_cons_cons]
    · have hmiss : face_hit g s ray f = false := by simpa using hh
      rw [List.foldlM_cons, sample_face_step_no_hit g s ray bufs f ha hb hc hmiss]
      show fs.foldlM (sample_face_step g s ray) bufs = _
      rw [ih hv' bufs, List.filter_cons_of_neg (by simp [hmiss])]

lemma sample_fold_all_miss (g : Geom) (s : HrtfSphere) (ray : RayT) (l : List Face)
    (hv : ∀ f ∈ l, f.a < s.points.length ∧ f.b < s.points.length ∧ f.c < s.points.length)
    (hmiss : ∀ f ∈ l, face_hit g s ray f = false) (bufs : List Cx × List Cx) :
    l.foldlM (sample_face_step g s ray) bufs = some bufs := by
  induction l with
  | nil => rfl
  | cons f fs ih =>
    obtain ⟨ha, hb, hc⟩ := hv f (List.mem_cons_self f fs)
    rw [List.foldlM_cons,
      sample_face_step_no_hit g s ray bufs f ha hb hc (hmiss f (List.mem_cons_self f fs))]
    exact ih (fun f' hf' => hv f' (List.mem_cons_of_mem f hf'))
      (fun f' hf' => hmiss f' (List.mem_cons_of_mem f hf'))

/-! ### Concrete instances used by witnesses and counterexamples -/

/-- Ray value produced by the concrete geometry oracles below. -/
def rayZ : RayT := ⟨Vec3.zeroV, Vec3.zeroV⟩

/-- Geometry oracle: ray construction succeeds, every triangle is hit, and the
barycentric weights are (1, 0, 0). -/
def geomAllHit : Geom :=
  ⟨fun _ _ => some rayZ, fun _ _ => some Vec3.zeroV, fun _ _ _ _ => (1, 0, 0)⟩

/-- Geometry oracle: ray construction always fails (degenerate direction). -/
def geomNoRay : Geom := ⟨fun _ _ => none, fun _ _ => none, fun _ _ _ _ => (0, 0, 0)⟩

/-- Geometry oracle: ray construction succeeds but no triangle is ever hit. -/
def geomNoHit : Geom := ⟨fun _ _ => some rayZ, fun _ _ => none, fun _ _ _ _ => (0, 0, 0)⟩

/-- Two-point sphere whose two faces carry distinguishable spectra. -/
def sphereTwoFaces : HrtfSphere :=
  ⟨1, [⟨Vec3.zeroV, [(1, 0)], [(1, 0)]⟩, ⟨Vec3.zeroV, [(0, 0)], [(0, 0)]⟩],
   [⟨0, 0, 0⟩, ⟨1, 1, 1⟩]⟩

/-! ### Claims C1, C7, C8 -/

/-- C1 (amended): for every store satisfying the data-model invariants and
every direction whose ray hits at least one triangle, sample_bilinear returns
the barycentric blend computed at the LAST face, in insertion order of the
face list, that the ray hits; earlier hits are overwritten because the face
loop has no break. -/
theorem c1_sample_bilinear_returns_last_hit (g : Geom) (s : HrtfSphere)
    (left right : List Cx) (dir : Vec3) (ray : RayT) (L : Nat) (f : Face)
    (hray : g.fromTwoPoints Vec3.zeroV (dir.scale 10) = some ray)
    (hL : UniformLens s L) (hv : ValidFaces s)
    (hlast : (s.faces.filter (face_hit g s ray)).getLast? = some f) :
    sample_bilinear g s left right dir = blend_face g s ray f := by
  unfold sample_bilinear
  rw [hray]
  show s.faces.foldlM (sample_face_step g s ray) (left, right) = _
  rw [sample_fold_characterization g s ray L hL s.faces hv (left, right), hlast]

/-- Witness for C1 (amended): a concrete run in which both faces are hit and
the returned spectra are the blend at the last face. -/
theorem c1_sample_bilinear_returns_last_hit_witness :
    sample_bilinear geomAllHit sphereTwoFaces [] [] ⟨1, 0, 0⟩
      = blend_face geomAllHit sphereTwoFaces rayZ ⟨1, 1, 1⟩ :=
  c1_sample_bilinear_returns_last_hit geomAllHit sphereTwoFaces [] [] ⟨1, 0, 0⟩ rayZ 1
    ⟨1, 1, 1⟩ rfl (by decide) (by decide) (by decide)

/-- C1 counterexample: with both faces hit by the ray, the first hit face in
insertion order is the face (0,0,0) and its blend is ([(1,0)], [(1,0)]), yet
sample_bilinear returns something different (the blend of the later face), so
the returned spectra are not those of the first hit and the triangles after
the first hit do affect the result. -/
theorem c1_counterexample :
    geomAllHit.fromTwoPoints Vec3.zeroV ((⟨1, 0, 0⟩ : Vec3).scale 10) = some rayZ
    ∧ (sphereTwoFaces.faces.filter (face_hit geomAllHit sphereTwoFaces rayZ)).head?
        = some ⟨0, 0, 0⟩
    ∧ blend_face geomAllHit sphereTwoFaces rayZ ⟨0, 0, 0⟩ = some ([(1, 0)], [(1, 0)])
    ∧ sample_bilinear geomAllHit sphereTwoFaces [] [] ⟨1, 0, 0⟩
        ≠ blend_face geomAllHit sphereTwoFaces rayZ ⟨0, 0, 0⟩ := by
  refine ⟨rfl, by decide, ?_, ?_⟩
  · simp [blend_face, blend_lists, geomAllHit, sphereTwoFaces, rayZ, cadd, csmul]
  · simp [sample_bilinear, sample_face_step, blend_face, blend_lists, geomAllHit,
      sphereTwoFaces, rayZ, cadd, csmul, List.foldlM, Prod.ext_iff]

/-- C7: for every store with a non-empty point list (whose first point's two
spectra have equal length, as all loaded stores do), a degenerate direction
for which no ray can be built makes sample_bilinear return exact copies of the
first stored point's left and right spectra, with no triangle intersection or
barycentric interpolation involved. -/
theorem c7_degenerate_direction_uses_first_point (g : Geom) (s : HrtfSphere)
    (left right : List Cx) (dir : Vec3) (pt : HrtfPoint) (rest : List HrtfPoint)
    (hray : g.fromTwoPoints Vec3.zeroV (dir.scale 10) = none)
    (hpts : s.points = pt :: rest)
    (hlen : pt.right_hrtf.length = pt.left_hrtf.length) :
    sample_bilinear g s left right dir = some (pt.left_hrtf, pt.right_hrtf) := by
  unfold sample_bilinear
  rw [hray, hpts]
  have h1 : first_point_copy pt.left_hrtf pt.left_hrtf.length = some pt.left_hrtf := by
    simpa using first_point_copy_take pt.left_hrtf pt.left_hrtf.length le_rfl
  have h2 : first_point_copy pt.right_hrtf pt.left_hrtf.length = some pt.right_hrtf := by
    rw [← hlen]
    simpa using first_point_copy_take pt.right_hrtf pt.right_hrtf.length le_rfl
  simp [h1, h2]

/-- Witness for C7: a degenerate direction returns the first point's spectra
even though the output buffers held other data. -/
theorem c7_degenerate_direction_uses_first_point_witness :
    sample_bilinear geomNoRay sphereTwoFaces [(5, 5)] [] ⟨0, 0, 0⟩
      = some ([(1, 0)], [(1, 0)]) :=
  c7_degenerate_direction_uses_first_point geomNoRay sphereTwoFaces [(5, 5)] [] ⟨0, 0, 0⟩
    ⟨Vec3.zeroV, [(1, 0)], [(1, 0)]⟩ [⟨Vec3.zeroV, [(0, 0)], [(0, 0)]⟩] rfl rfl rfl

/-- C8: for every store with in-bounds face indices and every non-degenerate
direction whose ray hits no triangle, sample_bilinear returns the two output
buffers exactly as they were (the previous call's spectra stay visible) and
reports no error. -/
theorem c8_ray_miss_keeps_previous_buffers (g : Geom) (s : HrtfSphere)
    (left right : List Cx) (dir : Vec3) (ray : RayT)
    (hray : g.fromTwoPoints Vec3.zeroV (dir.scale 10) = some ray)
    (hv : ValidFaces s)
    (hmiss : ∀ f ∈ s.faces, face_hit g s ray f = false) :
    sample_bilinear g s left right dir = some (left, right) := by
  unfold sample_bilinear
  rw [hray]
  exact sample_fold_all_miss g s ray s.faces hv hmiss (left, right)

/-- Witness for C8: a ray that misses both faces leaves the previously sampled
spectra in the buffers. -/
theorem c8_ray_miss_keeps_previous_buffers_witness :
    sample_bilinear geomNoHit sphereTwoFaces [(5, 5)] [(6, 6)] ⟨1, 0, 0⟩
      = some ([(5, 5)], [(6, 6)]) :=
  c8_ray_miss_keeps_previous_buffers geomNoHit sphereTwoFaces [(5, 5)] [(6, 6)]
    ⟨1, 0, 0⟩ rayZ rfl (by decide) (by decide)

/-! ### Loader lemmas -/

/-- Little-endian four-byte encoding of a 32-bit word. -/
def w32 (n : Nat) : List Nat :=
  [n % 256, n / 256 % 256, n / 65536 % 256, n / 16777216 % 256]

/-- Whether a load outcome is a successfully built sphere. -/
def LoadRes.isOk : LoadRes → Bool
  | .ok _ => true
  | _ => false

lemma read_u32_w32 (n : Nat) (h : n < 4294967296) (rest : List Nat) :
    read_u32 (w32 n ++ rest) = some (n, rest) := by
  simp only [w32, List.cons_append, List.nil_append, read_u32, Option.some.injEq,
    Prod.mk.injEq]
  exact ⟨by omega, trivial⟩

lemma read_hrir_length (decode : Nat → ℚ) :
    ∀ (k : Nat) (bs : List Nat) (v : List Cx) (rest : List Nat),
      read_hrir decode k bs = some (v, rest) → v.length = k
  | 0, bs, v, rest => by
    intro h
    simp only [read_hrir, Option.some.injEq, Prod.mk.injEq] at h
    obtain ⟨h1, -⟩ := h
    rw [← h1]
    rfl
  | k + 1, bs, v, rest => by
    intro h
    simp only [read_hrir, Option.bind_eq_bind, Option.bind_eq_some] at h
    obtain ⟨r, hr, rest1, hrest1, heq⟩ := h
    simp only [Option.pure_def, Option.some.injEq, Prod.mk.injEq] at heq
    obtain ⟨he1, -⟩ := heq
    have hrec := read_hrir_length decode k r.2 rest1.1 rest1.2 (by rw [hrest1])
    rw [← he1]
    simp [hrec]

lemma read_u32_drop (bs : List Nat) (h : 4 ≤ bs.length) :
    ∃ w, read_u32 bs = some (w, bs.drop 4) := by
  match bs, h with
  | b0 :: b1 :: b2 :: b3 :: rest, _ => exact ⟨_, rfl⟩

lemma read_hrir_drop (decode : Nat → ℚ) :
    ∀ (k : Nat) (bs : List Nat), 4 * k ≤ bs.length →
      ∃ v, read_hrir decode k bs = some (v, bs.drop (4 * k))
  | 0, bs, _ => ⟨[], by simp [read_hrir]⟩
  | k + 1, bs, h => by
    obtain ⟨w, hw⟩ := read_u32_drop bs (by omega)
    obtain ⟨v, hv⟩ := read_hrir_drop decode k (bs.drop 4)
      (by simp only [List.length_drop]; omega)
    have hdd : (bs.drop 4).drop (4 * k) = bs.drop (4 * (k + 1)) := by
      rw [List.drop_drop]
      congr 1
      omega
    rw [hdd] at hv
    refine ⟨(decode w, 0) :: v, ?_⟩
    simp [read_hrir, read_f32, hw, hv]

lemma read_indices_drop :
    ∀ (k : Nat) (bs : List Nat), 4 * k ≤ bs.length →
      ∃ ids, read_indices k bs = some (ids, bs.drop (4 * k)) ∧ ids.length = k
  | 0, bs, _ => ⟨[], by simp [read_indices], rfl⟩
  | k + 1, bs, h => by
    obtain ⟨w, hw⟩ := read_u32_drop bs (by omega)
    obtain ⟨ids, hids, hlen⟩ := read_indices_drop k (bs.drop 4)
      (by simp only [List.length_drop]; omega)
    have hdd : (bs.drop 4).drop (4 * k) = bs.drop (4 * (k + 1)) := by
      rw [List.drop_drop]
      congr 1
      omega
    rw [hdd] at hids
    refine ⟨w :: ids, ?_, by simp [hlen]⟩
    simp [read_indices, hw, hids]

lemma chunks_to_faces_isSome :
    ∀ (l : List Nat), l.length % 3 = 0 → (chunks_to_faces l).isSome = true
  | [], _ => rfl
  | a :: b :: c :: rest, h => by
    have h3 : rest.length % 3 = 0 := by
      simp only [List.length_cons] at h
      omega
    have hrec := chunks_to_faces_isSome rest h3
    cases hoc : chunks_to_faces rest with
    | none => rw [hoc] at hrec; simp at hrec
    | some fs => simp [chunks_to_faces, hoc]
  | [_], h => by simp at h
  | [_, _], h => by simp at h

lemma chunks_to_faces_none :
    ∀ (l : List Nat), l.length % 3 ≠ 0 → chunks_to_faces l = none
  | [], h => by simp at h
  | a :: b :: c :: rest, h => by
    have h3 : rest.length % 3 ≠ 0 := by
      simp only [List.length_cons] at h
      omega
    have := chunks_to_faces_none rest h3
    simp [chunks_to_faces, this]
  | [_], _ => rfl
  | [_, _], _ => rfl

lemma make_hrtf_length (fft : List Cx → List Cx)
    (hfft : ∀ l : List Cx, (fft l).length = l.length)
    (hrir : List Cx) (pad : Nat) (h : hrir.length ≤ pad) :
    (make_hrtf fft hrir pad).length = pad := by
  simp only [make_hrtf, hfft, List.length_append, List.length_replicate]
  omega

lemma read_vertices_points (decode : Nat → ℚ) (fft : List Cx → List Cx)
    (L pad : Nat) :
    ∀ (vc : Nat) (bs : List Nat) (pts : List HrtfPoint) (rest : List Nat),
      read_vertices decode fft L pad vc bs = some (pts, rest) →
      ∀ p ∈ pts, ∃ lh rh : List Cx, lh.length = L ∧ rh.length = L ∧
        p.left_hrtf = make_hrtf fft lh pad ∧ p.right_hrtf = make_hrtf fft rh pad
  | 0, bs, pts, rest => by
    intro h p hp
    simp only [read_vertices, Option.some.injEq, Prod.mk.injEq] at h
    obtain ⟨h1, -⟩ := h
    rw [← h1] at hp
    simp at hp
  | vc + 1, bs, pts, rest => by
    intro h p hp
    simp only [read_vertices, read_f32, Option.bind_eq_bind, Option.bind_eq_some] at h
    obtain ⟨rx, hrx, ry, hry, rz, hrz, lh, hlh, rh, hrh, rest1, hrest1, heq⟩ := h
    simp only [Option.pure_def, Option.some.injEq, Prod.mk.injEq] at heq
    rw [← heq.1] at hp
    rcases List.mem_cons.mp hp with hfirst | htail
    · refine ⟨lh.1, rh.1, read_hrir_length decode L rz.2 lh.1 lh.2 (by simp [hlh]),
        read_hrir_length decode L lh.2 rh.1 rh.2 (by simp [hrh]), ?_, ?_⟩
      · rw [hfirst]
      · rw [hfirst]
    · exact read_vertices_points decode fft L pad vc rh.2 rest1.1 rest1.2
        (by rw [hrest1]) p htail

lemma read_vertices_drop (decode : Nat → ℚ) (fft : List Cx → List Cx) (L pad : Nat) :
    ∀ (vc : Nat) (bs : List Nat), vc * (12 + 8 * L) ≤ bs.length →
      ∃ pts, read_vertices decode fft L pad vc bs
        = some (pts, bs.drop (vc * (12 + 8 * L)))
  | 0, bs, _ => ⟨[], by simp [read_vertices]⟩
  | vc + 1, bs, h => by
    have hlen : (vc + 1) * (12 + 8 * L) = 12 + 8 * L + vc * (12 + 8 * L) := by ring
    obtain ⟨wx, hwx⟩ := read_u32_drop bs (by omega)
    obtain ⟨wy, hwy⟩ := read_u32_drop (bs.drop 4)
      (by simp only [List.length_drop]; omega)
    obtain ⟨wz, hwz⟩ := read_u32_drop ((bs.drop 4).drop 4)
      (by simp only [List.length_drop]; omega)
    obtain ⟨vl, hvl⟩ := read_hrir_drop decode L (((bs.drop 4).drop 4).drop 4)
      (by simp only [List.length_drop]; omega)
    obtain ⟨vr, hvr⟩ := read_hrir_drop decode L ((((bs.drop 4).drop 4).drop 4).drop (4 * L))
      (by simp only [List.length_drop]; omega)
    obtain ⟨pts, hpts⟩ := read_vertices_drop decode fft L pad vc
      ((((((bs.drop 4).drop 4).drop 4).drop (4 * L)).drop (4 * L)))
      (by simp only [List.length_drop]; omega)
    have hdd : (((((bs.drop 4).drop 4).drop 4).drop (4 * L)).drop (4 * L)).drop
        (vc * (12 + 8 * L)) = bs.drop ((vc + 1) * (12 + 8 * L)) := by
      simp only [List.drop_drop]
      congr 1
      omega
    rw [hdd] at hpts
    refine ⟨⟨⟨decode wx, decode wy, decode wz⟩, make_hrtf fft vl pad,
      make_hrtf fft vr pad⟩ :: pts, ?_⟩
    simp only [read_vertices, read_f32, Option.bind_eq_bind, hwx, Option.some_bind,
      hwy, hwz, hvl, hvr, hpts, Option.pure_def]

lemma read_exact_four (m0 m1 m2 m3 : Nat) (rest : List Nat) :
    read_exact 4 (m0 :: m1 :: m2 :: m3 :: rest) = some ([m0, m1, m2, m3], rest) := by
  simp [read_exact]

lemma load_after_header_ok (decode : Nat → ℚ) (fft : List Cx → List Cx)
    (BL L vc ic : Nat) (bs : List Nat) (s : HrtfSphere)
    (h : load_after_header decode fft BL L vc ic bs = .ok s) :
    s.length = L ∧ ∀ p ∈ s.points, ∃ lh rh : List Cx, lh.length = L ∧ rh.length = L ∧
      p.left_hrtf = make_hrtf fft lh (BL + L - 1) ∧
      p.right_hrtf = make_hrtf fft rh (BL + L - 1) := by
  unfold load_after_header at h
  split at h
  · exact absurd h (by simp)
  · exact absurd h (by simp)
  · rename_i x0 faces bs6 hfaces
    split at h
    · exact absurd h (by simp)
    · rename_i points rest hpts
      have hs : s = ⟨L, points, faces⟩ := by
        cases h
        rfl
      rw [hs]
      refine ⟨rfl, ?_⟩
      intro p hp
      exact read_vertices_points decode fft L (BL + L - 1) vc bs6 points rest hpts p hp

lemma hrtfSphereNew_ok_inv (decode : Nat → ℚ) (fft : List Cx → List Cx)
    (SR BL : Nat) (bs : List Nat) (s : HrtfSphere)
    (hok : hrtfSphereNew decode fft SR BL bs = .ok s) :
    ∃ vc ic bs5, s.length ≠ 0 ∧
      load_after_header decode fft BL s.length vc ic bs5 = .ok s := by
  unfold hrtfSphereNew at hok
  split at hok
  · exact absurd hok (by simp)
  · split at hok
    · exact absurd hok (by simp)
    · split at hok
      · exact absurd hok (by simp)
      · split at hok
        · exact absurd hok (by simp)
        · split at hok
          · exact absurd hok (by simp)
          · split at hok
            · exact absurd hok (by simp)
            · rename_i hlen0
              split at hok
              · exact absurd hok (by simp)
              · split at hok
                · exact absurd hok (by simp)
                · rename_i x8 ic bs5 heq8
                  have hL := (load_after_header_ok _ _ _ _ _ _ _ _ hok).1
                  rw [← hL] at hok
                  refine ⟨_, ic, bs5, ?_, hok⟩
                  intro h0
                  exact hlen0 (hL.symm.trans h0)

/-! ### Claims C2, C4, C10, C5 -/

/-- C2 failing input: a file starting with the bytes of the string XRIR. Its
first byte differs from the expected one, yet the magic check passes because
the source combines the four byte mismatches with logical AND instead of OR;
the loader then proceeds to read the header (and here fails with the I/O
error, since the stream ends), never returning the invalid-file-format
error the claim requires. -/
theorem c2_magic_check_accepts_wrong_magic :
    hrtfSphereNew (fun _ => 0) id 44100 4 [88, 82, 73, 82] = .err .ioError ∧
    hrtfSphereNew (fun _ => 0) id 44100 4 [88, 82, 73, 82] ≠ .err .invalidFileFormat := by
  decide

/-- C4 (amended): every store returned successfully by Load has a nonzero
impulse length and every point's left and right spectra padded to
renderBlockLength + impulseLength - 1 (with a length-preserving transform).
Load does NOT establish the other two claimed invariants: it accepts a file
with an empty point list and never checks triangle indices against the point
list (see the counterexample). -/
theorem c4_loaded_store_spectra_padded (decode : Nat → ℚ) (fft : List Cx → List Cx)
    (SAMPLE_RATE HRTF_BLOCK_LEN : Nat) (bs : List Nat) (s : HrtfSphere)
    (hfft : ∀ l : List Cx, (fft l).length = l.length)
    (hBL : 1 ≤ HRTF_BLOCK_LEN)
    (hok : hrtfSphereNew decode fft SAMPLE_RATE HRTF_BLOCK_LEN bs = .ok s) :
    0 < s.length ∧ ∀ p ∈ s.points,
      p.left_hrtf.length = HRTF_BLOCK_LEN + s.length - 1 ∧
      p.right_hrtf.length = HRTF_BLOCK_LEN + s.length - 1 := by
  obtain ⟨vc, ic, bs5, hlen0, hload⟩ :=
    hrtfSphereNew_ok_inv decode fft SAMPLE_RATE HRTF_BLOCK_LEN bs s hok
  obtain ⟨-, hpts⟩ := load_after_header_ok _ _ _ _ _ _ _ _ hload
  refine ⟨Nat.pos_of_ne_zero hlen0, ?_⟩
  intro p hp
  obtain ⟨lh, rh, hlh, hrh, hpl, hpr⟩ := hpts p hp
  constructor
  · rw [hpl, make_hrtf_length fft hfft lh _ (by omega)]
  · rw [hpr, make_hrtf_length fft hfft rh _ (by omega)]

/-- The store produced by the C4 counterexample file: an empty point list and
one face whose indices are out of bounds. -/
def c4Sphere : HrtfSphere := ⟨1, [], [⟨7, 7, 7⟩]⟩

/-- The C4 counterexample file: valid magic, sample rate 44100, impulse length
1, vertex count 0, index count 3 with indices (7, 7, 7). -/
def c4Bytes : List Nat :=
  [72, 82, 73, 82] ++ [68, 172, 0, 0] ++ [1, 0, 0, 0] ++ [0, 0, 0, 0] ++ [3, 0, 0, 0]
    ++ [7, 0, 0, 0] ++ [7, 0, 0, 0] ++ [7, 0, 0, 0]

/-- C4 counterexample: Load succeeds on a file declaring zero vertices and a
face with indices 7, so the returned store has an empty point list and a
triangle whose indices are out of bounds of the point list — refuting the
claimed non-emptiness and index-bounds invariants. -/
theorem c4_counterexample :
    hrtfSphereNew (fun _ => 0) id 44100 4 c4Bytes = .ok c4Sphere
    ∧ c4Sphere.points.length = 0
    ∧ c4Sphere.faces.all (fun f => decide (c4Sphere.points.length ≤ f.a)) = true := by
  decide

/-- Witness for C4 (amended): a well-formed one-vertex file with impulse
length 2 and block length 2 loads into a store whose spectra have the padded
length 3 = 2 + 2 - 1. -/
def wfBytes : List Nat :=
  [72, 82, 73, 82] ++ [68, 172, 0, 0] ++ [2, 0, 0, 0] ++ [1, 0, 0, 0] ++ [0, 0, 0, 0]
    ++ List.replicate 28 0

/-- The store loaded from wfBytes with the zero f32 decoder and the identity
transform. -/
def wfSphere : HrtfSphere :=
  ⟨2, [⟨⟨0, 0, 0⟩, [(0, 0), (0, 0), (0, 0)], [(0, 0), (0, 0), (0, 0)]⟩], []⟩

theorem c4_loaded_store_spectra_padded_witness :
    0 < wfSphere.length ∧ ∀ p ∈ wfSphere.points,
      p.left_hrtf.length = 2 + wfSphere.length - 1 ∧
      p.right_hrtf.length = 2 + wfSphere.length - 1 :=
  c4_loaded_store_spectra_padded (fun _ => 0) id 44100 2 wfBytes wfSphere
    (fun _ => rfl) (by decide) (by decide)

/-- C10: for every file that passes header validation (magic accepted by the
source check, matching sample rate, nonzero impulse length) and declares an
index count that is not a multiple of three, with enough bytes for the
indices, the loader panics on an out-of-bounds chunk index while grouping
face indices into triples, instead of returning a typed error. -/
theorem c10_nonmultiple_index_count_panics (decode : Nat → ℚ)
    (fft : List Cx → List Cx) (SR BL : Nat) (m0 m1 m2 m3 L vc ic : Nat)
    (ibytes extra : List Nat)
    (hmagic : ¬(m0 ≠ 72 ∧ m1 ≠ 82 ∧ m2 ≠ 73 ∧ m3 ≠ 82))
    (hL0 : L ≠ 0) (hmod : ic % 3 ≠ 0)
    (hSR : SR < 4294967296) (hL32 : L < 4294967296)
    (hvc : vc < 4294967296) (hic : ic < 4294967296)
    (hib : ibytes.length = 4 * ic) :
    hrtfSphereNew decode fft SR BL
      (m0 :: m1 :: m2 :: m3 :: (w32 SR ++ (w32 L ++ (w32 vc ++ (w32 ic ++ (ibytes ++ extra))))))
      = .panic := by
  obtain ⟨ids, hids, hidlen⟩ := read_indices_drop ic (ibytes ++ extra)
    (by simp [hib])
  have hdropix : (ibytes ++ extra).drop (4 * ic) = extra := by
    rw [← hib]
    exact List.drop_left ibytes extra
  rw [hdropix] at hids
  have hchunks := chunks_to_faces_none ids (by rw [hidlen]; exact hmod)
  simp only [hrtfSphereNew, read_exact_four, List.getD_cons_zero, List.getD_cons_succ,
    read_u32_w32 SR hSR, read_u32_w32 L hL32, read_u32_w32 vc hvc, read_u32_w32 ic hic,
    hmagic, ne_eq, not_true_eq_false, if_false, hL0]
  simp only [load_after_header, read_faces, Option.bind_eq_bind, hids, Option.some_bind,
    hchunks, Option.pure_def]

/-- Witness for C10: a concrete file with index count 4 (enough index bytes)
panics while grouping indices into triples. -/
theorem c10_nonmultiple_index_count_panics_witness :
    hrtfSphereNew (fun _ => 0) id 44100 4
      (72 :: 82 :: 73 :: 82 ::
        (w32 44100 ++ (w32 1 ++ (w32 0 ++ (w32 4 ++ (List.replicate 16 0 ++ []))))))
      = .panic :=
  c10_nonmultiple_index_count_panics (fun _ => 0) id 44100 4 72 82 73 82 1 0 4
    (List.replicate 16 0) [] (by decide) (by decide) (by decide) (by decide)
    (by decide) (by decide) (by decide) (by decide)

/-- C5: for every file that passes the source's magic check: a mismatched
sample rate makes Load fail with the rate-mismatch error carrying the observed
and the required rate; with a matching rate, a zero declared impulse length
makes Load fail with the invalid-length error; and a well-formed file
(matching rate, nonzero impulse length, index count a multiple of three,
enough bytes for indices and vertices) loads successfully. -/
theorem c5_header_validation (decode : Nat → ℚ) (fft : List Cx → List Cx)
    (SR BL : Nat) (m0 m1 m2 m3 : Nat)
    (hmagic : ¬(m0 ≠ 72 ∧ m1 ≠ 82 ∧ m2 ≠ 73 ∧ m3 ≠ 82))
    (hSR32 : SR < 4294967296) :
    (∀ (sr : Nat) (tail : List Nat), sr < 4294967296 → sr ≠ SR →
      hrtfSphereNew decode fft SR BL (m0 :: m1 :: m2 :: m3 :: (w32 sr ++ tail))
        = .err (.invalidSampleRate sr SR))
    ∧ (∀ tail : List Nat,
      hrtfSphereNew decode fft SR BL (m0 :: m1 :: m2 :: m3 :: (w32 SR ++ (w32 0 ++ tail)))
        = .err (.invalidLength 0))
    ∧ (∀ (L vc ic : Nat) (ibytes vbytes : List Nat),
      L ≠ 0 → L < 4294967296 → vc < 4294967296 → ic < 4294967296 →
      ic % 3 = 0 → ibytes.length = 4 * ic → vc * (12 + 8 * L) ≤ vbytes.length →
      (hrtfSphereNew decode fft SR BL
        (m0 :: m1 :: m2 :: m3 ::
          (w32 SR ++ (w32 L ++ (w32 vc ++ (w32 ic ++ (ibytes ++ vbytes))))))).isOk
        = true) := by
  refine ⟨?_, ?_, ?_⟩
  · intro sr tail hsr32 hne
    simp only [hrtfSphereNew, read_exact_four, List.getD_cons_zero, List.getD_cons_succ,
      hmagic, read_u32_w32 sr hsr32, ne_eq, hne, not_true_eq_false, not_false_eq_true,
      if_false, if_true]
  · intro tail
    simp only [hrtfSphereNew, read_exact_four, List.getD_cons_zero, List.getD_cons_succ,
      hmagic, read_u32_w32 SR hSR32, read_u32_w32 0 (by norm_num), ne_eq,
      not_true_eq_false, if_false]
    simp
  · intro L vc ic ibytes vbytes hL0 hL32 hvc32 hic32 hmod hib hvb
    obtain ⟨ids, hids, hidlen⟩ := read_indices_drop ic (ibytes ++ vbytes)
      (by simp [hib])
    have hdropix : (ibytes ++ vbytes).drop (4 * ic) = vbytes := by
      rw [← hib]
      exact List.drop_left ibytes vbytes
    rw [hdropix] at hids
    obtain ⟨fs, hfs⟩ := Option.isSome_iff_exists.mp
      (chunks_to_faces_isSome ids (by rw [hidlen]; exact hmod))
    obtain ⟨pts, hpts⟩ := read_vertices_drop decode fft L (BL + L - 1) vc vbytes hvb
    simp only [hrtfSphereNew, read_exact_four, List.getD_cons_zero, List.getD_cons_succ,
      hmagic, read_u32_w32 SR hSR32, read_u32_w32 L hL32, read_u32_w32 vc hvc32,
      read_u32_w32 ic hic32, ne_eq, not_true_eq_false, if_false, hL0]
    simp only [load_after_header, read_faces, Option.bind_eq_bind, hids,
      Option.some_bind, hfs, Option.pure_def, hpts, LoadRes.isOk]

/-- Witness for C5: the three header-validation behaviors at concrete files:
rate 48000 against device rate 44100, zero impulse length, and a well-formed
one-vertex file. -/
theorem c5_header_validation_witness :
    hrtfSphereNew (fun _ => 0) id 44100 2 (72 :: 82 :: 73 :: 82 :: (w32 48000 ++ []))
      = .err (.invalidSampleRate 48000 44100)
    ∧ hrtfSphereNew (fun _ => 0) id 44100 2
        (72 :: 82 :: 73 :: 82 :: (w32 44100 ++ (w32 0 ++ [])))
      = .err (.invalidLength 0)
    ∧ (hrtfSphereNew (fun _ => 0) id 44100 2
        (72 :: 82 :: 73 :: 82 ::
          (w32 44100 ++ (w32 2 ++ (w32 1 ++ (w32 0 ++ ([] ++ List.replicate 28 0))))))).isOk
      = true := by
  have h := c5_header_validation (fun _ => 0) id 44100 2 72 82 73 82 (by decide) (by decide)
  exact ⟨h.1 48000 [] (by decide) (by decide), h.2.1 [],
    h.2.2 2 1 0 [] (List.replicate 28 0) (by decide) (by decide) (by decide) (by decide)
      (by decide) (by decide) (by simp)⟩

/-! ### Convolution lemmas and claim C3 -/

lemma tail_or_zeros_length (prev : List ℚ) (seg : Nat) :
    (tail_or_zeros prev seg).length = seg := by
  unfold tail_or_zeros
  split
  · simp
  · omega

lemma fft_time_buffer_length (prev : List ℚ) (raw : List Cx) (seg : Nat)
    (h : seg ≤ raw.length) :
    (fft_time_buffer prev raw seg).length = raw.length := by
  simp [fft_time_buffer, tail_or_zeros_length]
  omega

lemma spectral_multiply_length (a b : List Cx) :
    (spectral_multiply a b).length = a.length := by
  simp [spectral_multiply]
  omega

/-- Equation form of a successful convolve_overlap_save call. -/
lemma convolve_ok_eq (fft ifft : List Cx → List Cx)
    (in_buffer out_buffer hrtf : List Cx) (seg : Nat) (prev : List ℚ)
    (hlen : hrtf.length = in_buffer.length) (hseg : seg ≤ in_buffer.length) :
    convolve_overlap_save fft ifft in_buffer out_buffer hrtf seg prev
      = .ok (ifft (spectral_multiply (fft (fft_time_buffer prev in_buffer seg)) hrtf),
             spectral_multiply (fft (fft_time_buffer prev in_buffer seg)) hrtf,
             ((fft_time_buffer prev in_buffer seg).drop
               (in_buffer.length - seg)).map Prod.fst) := by
  simp [convolve_overlap_save, copy_replace, hlen, hseg]

/-- C3: the buffer handed to the forward transform starts with the previous
call's tail (all zeros on the first call, where the stored tail is empty and
hence not of the segment length) followed by the caller's raw samples; the
returned tail state is the last segment-length real parts of that same
un-convolved buffer, captured before any transform, so the saved tail comes
from the raw-sample buffer and not from the convolved output. -/
theorem c3_overlap_save_tail_state (fft ifft : List Cx → List Cx)
    (in_buffer out_buffer hrtf : List Cx) (segment_len : Nat) (prev_samples : List ℚ)
    (hlen : hrtf.length = in_buffer.length) (hseg : segment_len ≤ in_buffer.length) :
    convolve_overlap_save fft ifft in_buffer out_buffer hrtf segment_len prev_samples
      = .ok (ifft (spectral_multiply
               (fft (fft_time_buffer prev_samples in_buffer segment_len)) hrtf),
             spectral_multiply
               (fft (fft_time_buffer prev_samples in_buffer segment_len)) hrtf,
             ((fft_time_buffer prev_samples in_buffer segment_len).drop
               (in_buffer.length - segment_len)).map Prod.fst)
    ∧ (fft_time_buffer prev_samples in_buffer segment_len).take segment_len
        = (tail_or_zeros prev_samples segment_len).map (fun p => ((p, 0) : Cx))
    ∧ (prev_samples = [] → 0 < segment_len →
        tail_or_zeros prev_samples segment_len = List.replicate segment_len 0)
    ∧ (prev_samples.length = segment_len →
        tail_or_zeros prev_samples segment_len = prev_samples)
    ∧ (segment_len + segment_len ≤ in_buffer.length →
        ((fft_time_buffer prev_samples in_buffer segment_len).drop
          (in_buffer.length - segment_len)).map Prod.fst
        = (in_buffer.drop (in_buffer.length - segment_len)).map Prod.fst) := by
  refine ⟨convolve_ok_eq fft ifft in_buffer out_buffer hrtf segment_len prev_samples
    hlen hseg, ?_, ?_, ?_, ?_⟩
  · unfold fft_time_buffer
    refine List.take_left' ?_
    simp [tail_or_zeros_length]
  · intro hprev hpos
    subst hprev
    unfold tail_or_zeros
    rw [if_pos (by simp; omega)]
  · intro hprev
    unfold tail_or_zeros
    rw [if_neg (by omega)]
  · intro h2seg
    have hpre : ((tail_or_zeros prev_samples segment_len).map
        (fun p => ((p, 0) : Cx))).length = segment_len := by
      simp [tail_or_zeros_length]
    have e1 : in_buffer.length - segment_len
        = ((tail_or_zeros prev_samples segment_len).map
            (fun p => ((p, 0) : Cx))).length
          + (in_buffer.length - segment_len - segment_len) := by
      rw [hpre]
      omega
    unfold fft_time_buffer
    nth_rewrite 1 [e1]
    rw [List.drop_append, List.drop_drop]
    congr 2
    omega

/-- Witness for C3: a concrete convolution call (identity transforms, tail
length 2, first call with empty stored tail). -/
theorem c3_overlap_save_tail_state_witness :
    convolve_overlap_save id id [(1, 0), (2, 0), (3, 0)] [] [(1, 0), (1, 0), (1, 0)] 2 []
      = ConvRes.ok ([(0, 0), (0, 0), (3, 0)], [(0, 0), (0, 0), (3, 0)], [0, 3]) := by
  have h := c3_overlap_save_tail_state id id [((1 : ℚ), (0 : ℚ)), (2, 0), (3, 0)] []
    [(1, 0), (1, 0), (1, 0)] 2 [] rfl (by norm_num)
  rw [h.1]
  norm_num [fft_time_buffer, tail_or_zeros, spectral_multiply, cmul, czero,
    List.replicate, Prod.ext_iff]

/-! ### Renderer lemmas -/

lemma overwriteBy_length (dst src : List Cx) :
    (overwriteBy dst src).length = dst.length := by
  simp [overwriteBy]
  omega

lemma get_raw_samples_eq (frame : List (ℚ × ℚ)) (offset : Nat) (left right : List Cx)
    (h : left.length = right.length) (hoff : offset ≤ frame.length) :
    get_raw_samples frame offset left right
      = some (overwriteBy left ((frame.drop offset).map fun s => ((s.1, 0) : Cx)),
              overwriteBy right ((frame.drop offset).map fun s => ((s.1, 0) : Cx))) := by
  simp [get_raw_samples, h, hoff]

lemma addIntoOut_length (out_slice : List (ℚ × ℚ)) (lp rp : List Cx) (k : ℚ) :
    (addIntoOut out_slice lp rp k).length = out_slice.length := by
  simp [addIntoOut]
  omega

lemma sample_bilinear_lengths (g : Geom) (s : HrtfSphere) (left right : List Cx)
    (dir : Vec3) (L : Nat)
    (hne : s.points ≠ []) (hv : ValidFaces s) (hL : UniformLens s L)
    (hleft : left.length = L) (hright : right.length = L) :
    ∃ lh rh, sample_bilinear g s left right dir = some (lh, rh)
      ∧ lh.length = L ∧ rh.length = L := by
  unfold sample_bilinear
  cases hray : g.fromTwoPoints Vec3.zeroV (dir.scale 10) with
  | none =>
    cases hpts : s.points with
    | nil => exact absurd hpts hne
    | cons pt rest =>
      obtain ⟨hpl, hpr⟩ := hL pt (by rw [hpts]; exact List.mem_cons_self pt rest)
      have h1 : first_point_copy pt.left_hrtf pt.left_hrtf.length = some pt.left_hrtf := by
        simpa using first_point_copy_take pt.left_hrtf pt.left_hrtf.length le_rfl
      have h2 : first_point_copy pt.right_hrtf pt.left_hrtf.length = some pt.right_hrtf := by
        rw [hpl, ← hpr]
        simpa using first_point_copy_take pt.right_hrtf pt.right_hrtf.length le_rfl
      exact ⟨pt.left_hrtf, pt.right_hrtf, by simp [h1, h2], hpl, hpr⟩
  | some ray =>
    show ∃ lh rh, s.faces.foldlM (sample_face_step g s ray) (left, right) = some (lh, rh) ∧ _
    rw [sample_fold_characterization g s ray L hL s.faces hv (left, right)]
    cases hlast : (s.faces.filter (face_hit g s ray)).getLast? with
    | none => exact ⟨left, right, rfl, hleft, hright⟩
    | some f =>
      have hmemf : f ∈ s.faces.filter (face_hit g s ray) := by
        obtain ⟨hne2, heq2⟩ := List.mem_getLast?_eq_getLast
          (l := s.faces.filter (face_hit g s ray)) (x := f) hlast
        rw [heq2]
        exact List.getLast_mem hne2
      have hmem2 : f ∈ s.faces := (List.mem_filter.mp hmemf).1
      have hhit : face_hit g s ray f = true := (List.mem_filter.mp hmemf).2
      obtain ⟨ha, hb, hc⟩ := hv f hmem2
      obtain ⟨-, r, hr, hr1, hr2⟩ :=
        sample_face_step_hit g s ray (left, right) f L hL ha hb hc hhit
      refine ⟨r.1, r.2, ?_, hr1, hr2⟩
      show blend_face g s ray f = some (r.1, r.2)
      rw [hr]

/-- The raw mono samples of the source frame at one sub-block, as complex
values (left channel only). -/
def rawSrc (frame : List (ℚ × ℚ)) (HRTF_BLOCK_LEN step : Nat) : List Cx :=
  (frame.drop (step * HRTF_BLOCK_LEN)).map fun s => ((s.1, 0) : Cx)

/-- One input buffer after the raw-sample refill of one sub-block: the first
hrtf_len slots (the tail region) kept, the raw samples written after them. -/
def refill (hrtf_len : Nat) (buf src : List Cx) : List Cx :=
  buf.take hrtf_len ++ overwriteBy (buf.drop hrtf_len) src

/-- The contents of one in-buffer after convolve_overlap_save: the
inverse transform of the spectral product. -/
def conv_time (fft ifft : List Cx → List Cx) (hrtf : List Cx) (hrtf_len : Nat)
    (prev : List ℚ) (inBuf : List Cx) : List Cx :=
  ifft (spectral_multiply (fft (fft_time_buffer prev inBuf hrtf_len)) hrtf)

/-- The contents of one out-buffer after convolve_overlap_save: the spectral
product itself. -/
def conv_freq (fft : List Cx → List Cx) (hrtf : List Cx) (hrtf_len : Nat)
    (prev : List ℚ) (inBuf : List Cx) : List Cx :=
  spectral_multiply (fft (fft_time_buffer prev inBuf hrtf_len)) hrtf

/-- The tail saved by convolve_overlap_save for the next call. -/
def conv_tail (hrtf_len : Nat) (prev : List ℚ) (inBuf : List Cx) : List ℚ :=
  ((fft_time_buffer prev inBuf hrtf_len).drop (inBuf.length - hrtf_len)).map Prod.fst

lemma refill_length (hl : Nat) (buf src : List Cx) (h : hl ≤ buf.length) :
    (refill hl buf src).length = buf.length := by
  simp [refill, overwriteBy_length]
  omega

/-- Full equation of one successful render sub-block step, under the renderer
invariants. pad abbreviates the padded length. -/
lemma render_step_eq (fft ifft : List Cx → List Cx) (g : Geom)
    (BL N : Nat) (sphere : HrtfSphere) (frame : List (ℚ × ℚ)) (new_v : Vec3)
    (new_g : ℚ) (rs : RenderState) (sp : SpatialState) (out_buf : List (ℚ × ℚ))
    (step : Nat) (lh rh : List Cx)
    (hfft : ∀ l : List Cx, (fft l).length = l.length)
    (hifft : ∀ l : List Cx, (ifft l).length = l.length)
    (hout : (step + 1) * BL ≤ out_buf.length)
    (hoff : step * BL ≤ frame.length)
    (hsample : sample_bilinear g sphere rs.left_hrtf rs.right_hrtf
        (sp.prev_sampling_vector.lerp new_v ((step + 1 : ℚ) / (N : ℚ))) = some (lh, rh))
    (hlin : rs.left_in_buffer.length = BL + sphere.length - 1)
    (hrin : rs.right_in_buffer.length = BL + sphere.length - 1)
    (hlh : lh.length = BL + sphere.length - 1)
    (hrh : rh.length = BL + sphere.length - 1) :
    render_step fft ifft g BL N sphere frame new_v new_g (rs, sp, out_buf) step
      = some
        (⟨conv_time fft ifft lh (sphere.length - 1) sp.prev_left_samples
            (refill (sphere.length - 1) rs.left_in_buffer (rawSrc frame BL step)),
          conv_time fft ifft rh (sphere.length - 1) sp.prev_right_samples
            (refill (sphere.length - 1) rs.right_in_buffer (rawSrc frame BL step)),
          conv_freq fft lh (sphere.length - 1) sp.prev_left_samples
            (refill (sphere.length - 1) rs.left_in_buffer (rawSrc frame BL step)),
          conv_freq fft rh (sphere.length - 1) sp.prev_right_samples
            (refill (sphere.length - 1) rs.right_in_buffer (rawSrc frame BL step)),
          lh, rh⟩,
         ⟨sp.prev_sampling_vector, sp.prev_distance_gain,
          conv_tail (sphere.length - 1) sp.prev_left_samples
            (refill (sphere.length - 1) rs.left_in_buffer (rawSrc frame BL step)),
          conv_tail (sphere.length - 1) sp.prev_right_samples
            (refill (sphere.length - 1) rs.right_in_buffer (rawSrc frame BL step))⟩,
         out_buf.take (step * BL)
           ++ addIntoOut ((out_buf.take ((step + 1) * BL)).drop (step * BL))
                ((conv_time fft ifft lh (sphere.length - 1) sp.prev_left_samples
                  (refill (sphere.length - 1) rs.left_in_buffer
                    (rawSrc frame BL step))).drop (sphere.length - 1))
                ((conv_time fft ifft rh (sphere.length - 1) sp.prev_right_samples
                  (refill (sphere.length - 1) rs.right_in_buffer
                    (rawSrc frame BL step))).drop (sphere.length - 1))
                (lerpf (sp.prev_distance_gain.getD new_g) new_g ((step + 1 : ℚ) / (N : ℚ))
                  / ((BL + sphere.length - 1 : Nat) : ℚ))
           ++ out_buf.drop ((step + 1) * BL)) := by
  have hl_le_l : sphere.length - 1 ≤ rs.left_in_buffer.length := by omega
  have hl_le_r : sphere.length - 1 ≤ rs.right_in_buffer.length := by omega
  have hdl : (rs.left_in_buffer.drop (sphere.length - 1)).length
      = (rs.right_in_buffer.drop (sphere.length - 1)).length := by
    simp [hlin, hrin]
  have hraw := get_raw_samples_eq frame (step * BL)
    (rs.left_in_buffer.drop (sphere.length - 1))
    (rs.right_in_buffer.drop (sphere.length - 1)) hdl hoff
  have hlinlen : (refill (sphere.length - 1) rs.left_in_buffer
      (rawSrc frame BL step)).length = BL + sphere.length - 1 := by
    rw [refill_length _ _ _ hl_le_l, hlin]
  have hrinlen : (refill (sphere.length - 1) rs.right_in_buffer
      (rawSrc frame BL step)).length = BL + sphere.length - 1 := by
    rw [refill_length _ _ _ hl_le_r, hrin]
  have hconvl := convolve_ok_eq fft ifft
    (refill (sphere.length - 1) rs.left_in_buffer (rawSrc frame BL step))
    rs.left_out_buffer lh (sphere.length - 1) sp.prev_left_samples
    (by rw [hlh, hlinlen]) (by rw [hlinlen]; omega)
  have hconvr := convolve_ok_eq fft ifft
    (refill (sphere.length - 1) rs.right_in_buffer (rawSrc frame BL step))
    rs.right_out_buffer rh (sphere.length - 1) sp.prev_right_samples
    (by rw [hrh, hrinlen]) (by rw [hrinlen]; omega)
  have hpayl : sphere.length - 1 ≤ (conv_time fft ifft lh (sphere.length - 1)
      sp.prev_left_samples (refill (sphere.length - 1) rs.left_in_buffer
        (rawSrc frame BL step))).length := by
    rw [conv_time, hifft, spectral_multiply_length, hfft,
      fft_time_buffer_length _ _ _ (by rw [hlinlen]; omega), hlinlen]
    omega
  have hpayr : sphere.length - 1 ≤ (conv_time fft ifft rh (sphere.length - 1)
      sp.prev_right_samples (refill (sphere.length - 1) rs.right_in_buffer
        (rawSrc frame BL step))).length := by
    rw [conv_time, hifft, spectral_multiply_length, hfft,
      fft_time_buffer_length _ _ _ (by rw [hrinlen]; omega), hrinlen]
    omega
  simp only [rawSrc, refill, conv_time, conv_freq, conv_tail]
    at hraw hconvl hconvr hpayl hpayr
  simp only [render_step, get_pad_len, Nat.cast_add, Nat.cast_one, hout, if_true,
    hsample, hraw, hconvl, hconvr, hl_le_l, hl_le_r, hpayl, hpayr, and_self,
    rawSrc, refill, conv_time, conv_freq, conv_tail]

/-- Renderer scratch-state invariant: all six buffers have the padded length. -/
abbrev RSInv (pad : Nat) (rs : RenderState) : Prop :=
  rs.left_in_buffer.length = pad ∧ rs.right_in_buffer.length = pad ∧
  rs.left_out_buffer.length = pad ∧ rs.right_out_buffer.length = pad ∧
  rs.left_hrtf.length = pad ∧ rs.right_hrtf.length = pad

lemma conv_time_length (fft ifft : List Cx → List Cx) (hrtf : List Cx) (hl : Nat)
    (prev : List ℚ) (inBuf : List Cx)
    (hfft : ∀ l : List Cx, (fft l).length = l.length)
    (hifft : ∀ l : List Cx, (ifft l).length = l.length)
    (h : hl ≤ inBuf.length) :
    (conv_time fft ifft hrtf hl prev inBuf).length = inBuf.length := by
  rw [conv_time, hifft, spectral_multiply_length, hfft, fft_time_buffer_length _ _ _ h]

lemma conv_freq_length (fft : List Cx → List Cx) (hrtf : List Cx) (hl : Nat)
    (prev : List ℚ) (inBuf : List Cx)
    (hfft : ∀ l : List Cx, (fft l).length = l.length)
    (h : hl ≤ inBuf.length) :
    (conv_freq fft hrtf hl prev inBuf).length = inBuf.length := by
  rw [conv_freq, spectral_multiply_length, hfft, fft_time_buffer_length _ _ _ h]

lemma render_step_ok (fft ifft : List Cx → List Cx) (g : Geom)
    (BL N : Nat) (sphere : HrtfSphere) (frame : List (ℚ × ℚ)) (new_v : Vec3)
    (new_g : ℚ) (rs : RenderState) (sp : SpatialState) (out_buf : List (ℚ × ℚ))
    (step : Nat)
    (hfft : ∀ l : List Cx, (fft l).length = l.length)
    (hifft : ∀ l : List Cx, (ifft l).length = l.length)
    (hne : sphere.points ≠ []) (hv : ValidFaces sphere)
    (hL : UniformLens sphere (BL + sphere.length - 1))
    (hrs : RSInv (BL + sphere.length - 1) rs)
    (hout : out_buf.length = N * BL)
    (hframe : N * BL ≤ frame.length)
    (hstep : step < N) :
    ∃ rs' sp' out',
      render_step fft ifft g BL N sphere frame new_v new_g (rs, sp, out_buf) step
        = some (rs', sp', out')
      ∧ RSInv (BL + sphere.length - 1) rs' ∧ out'.length = N * BL := by
  obtain ⟨hl1, hl2, hl3, hl4, hl5, hl6⟩ := hrs
  obtain ⟨lh, rh, hsample, hlh, hrh⟩ := sample_bilinear_lengths g sphere
    rs.left_hrtf rs.right_hrtf
    (sp.prev_sampling_vector.lerp new_v ((step + 1 : ℚ) / (N : ℚ)))
    (BL + sphere.length - 1) hne hv hL hl5 hl6
  have hout2 : (step + 1) * BL ≤ out_buf.length := by
    rw [hout]
    exact Nat.mul_le_mul_right BL hstep
  have hoff : step * BL ≤ frame.length :=
    le_trans (le_trans (Nat.mul_le_mul_right BL (le_of_lt hstep)) le_rfl) hframe
  have heq := render_step_eq fft ifft g BL N sphere frame new_v new_g rs sp out_buf
    step lh rh hfft hifft hout2 hoff hsample hl1 hl2 hlh hrh
  refine ⟨_, _, _, heq, ?_, ?_⟩
  · have hll : (refill (sphere.length - 1) rs.left_in_buffer
        (rawSrc frame BL step)).length = BL + sphere.length - 1 := by
      rw [refill_length _ _ _ (by omega), hl1]
    have hrr : (refill (sphere.length - 1) rs.right_in_buffer
        (rawSrc frame BL step)).length = BL + sphere.length - 1 := by
      rw [refill_length _ _ _ (by omega), hl2]
    refine ⟨?_, ?_, ?_, ?_, hlh, hrh⟩
    · rw [conv_time_length _ _ _ _ _ _ hfft hifft (by omega), hll]
    · rw [conv_time_length _ _ _ _ _ _ hfft hifft (by omega), hrr]
    · rw [conv_freq_length _ _ _ _ _ hfft (by omega), hll]
    · rw [conv_freq_length _ _ _ _ _ hfft (by omega), hrr]
  · have hmul : (step + 1) * BL = step * BL + BL := Nat.succ_mul step BL
    rw [hmul] at hout2
    have ha : (out_buf.take (step * BL)).length = step * BL := by
      rw [List.length_take]
      omega
    have hb : ((out_buf.take (step * BL + BL)).drop (step * BL)).length = BL := by
      rw [List.length_drop, List.length_take]
      omega
    simp only [hmul, List.length_append, addIntoOut_length, ha, hb, List.length_drop]
    omega

lemma render_fold_ok (fft ifft : List Cx → List Cx) (g : Geom)
    (BL N : Nat) (sphere : HrtfSphere) (frame : List (ℚ × ℚ)) (new_v : Vec3)
    (new_g : ℚ)
    (hfft : ∀ l : List Cx, (fft l).length = l.length)
    (hifft : ∀ l : List Cx, (ifft l).length = l.length)
    (hne : sphere.points ≠ []) (hv : ValidFaces sphere)
    (hL : UniformLens sphere (BL + sphere.length - 1))
    (hframe : N * BL ≤ frame.length) :
    ∀ (l : List Nat), (∀ x ∈ l, x < N) →
    ∀ (rs : RenderState) (sp : SpatialState) (out_buf : List (ℚ × ℚ)),
      RSInv (BL + sphere.length - 1) rs → out_buf.length = N * BL →
      ∃ rs' sp' out',
        l.foldlM (render_step fft ifft g BL N sphere frame new_v new_g)
            (rs, sp, out_buf) = some (rs', sp', out')
        ∧ RSInv (BL + sphere.length - 1) rs' ∧ out'.length = N * BL := by
  intro l
  induction l with
  | nil => exact fun _ rs sp out_buf hrs hout => ⟨rs, sp, out_buf, rfl, hrs, hout⟩
  | cons x xs ih =>
    intro hmem rs sp out_buf hrs hout
    obtain ⟨rs1, sp1, out1, hstep, hrs1, hout1⟩ := render_step_ok fft ifft g BL N
      sphere frame new_v new_g rs sp out_buf x hfft hifft hne hv hL hrs hout hframe
      (hmem x (List.mem_cons_self x xs))
    obtain ⟨rs2, sp2, out2, hfold, hrs2, hout2⟩ := ih
      (fun y hy => hmem y (List.mem_cons_of_mem x hy)) rs1 sp1 out1 hrs1 hout1
    refine ⟨rs2, sp2, out2, ?_, hrs2, hout2⟩
    rw [List.foldlM_cons, hstep]
    exact hfold

lemma convolve_assertFail_iff (fft ifft : List Cx → List Cx)
    (inB outB hrtf : List Cx) (hl : Nat) (pv : List ℚ) :
    convolve_overlap_save fft ifft inB outB hrtf hl pv = ConvRes.assertFail
      ↔ hrtf.length ≠ inB.length := by
  unfold convolve_overlap_save
  split
  · rename_i hlen
    simp only [hlen, ne_eq, not_true_eq_false, iff_false]
    split <;> simp
  · rename_i hlen
    simp [hlen]

/-- C6: the assert of convolve_overlap_save fires exactly when the impulse
spectrum's length differs from the working buffer's length; and under the
store invariants and the construction-time buffer sizing, a whole spatial
render call runs to completion (in particular no convolution call inside it
ever reaches the assertion failure). -/
theorem c6_assert_iff_and_never_fires_in_render (fft ifft : List Cx → List Cx)
    (g : Geom) (BL N : Nat) (sphere : HrtfSphere) (frame : List (ℚ × ℚ))
    (new_v : Vec3) (new_g : ℚ) (rs : RenderState) (sp : SpatialState)
    (out_buf : List (ℚ × ℚ))
    (hfft : ∀ l : List Cx, (fft l).length = l.length)
    (hifft : ∀ l : List Cx, (ifft l).length = l.length)
    (hne : sphere.points ≠ []) (hv : ValidFaces sphere)
    (hL : UniformLens sphere (BL + sphere.length - 1))
    (hrs : RSInv (BL + sphere.length - 1) rs)
    (hout : out_buf.length = N * BL)
    (hframe : N * BL ≤ frame.length) :
    (∀ (fft2 ifft2 : List Cx → List Cx) (inB outB h2 : List Cx) (hl : Nat)
      (pv : List ℚ),
      convolve_overlap_save fft2 ifft2 inB outB h2 hl pv = ConvRes.assertFail
        ↔ h2.length ≠ inB.length)
    ∧ (render_source_spatial fft ifft g BL N sphere frame new_v new_g
        rs sp out_buf).isSome = true := by
  refine ⟨fun fft2 ifft2 inB outB h2 hl pv =>
    convolve_assertFail_iff fft2 ifft2 inB outB h2 hl pv, ?_⟩
  obtain ⟨rs2, sp2, out2, hfold, -, -⟩ := render_fold_ok fft ifft g BL N sphere
    frame new_v new_g hfft hifft hne hv hL hframe (List.range N)
    (fun x hx => List.mem_range.mp hx) rs sp out_buf hrs hout
  rw [render_source_spatial, hfold]
  rfl

/-- One-point sphere with impulse length 1 used by the render witnesses. -/
def sphereOnePoint : HrtfSphere := ⟨1, [⟨Vec3.zeroV, [(2, 0)], [(2, 0)]⟩], [⟨0, 0, 0⟩]⟩

/-- Renderer state sized for sphereOnePoint with block length 1 (pad 1). -/
def rsOne : RenderState := ⟨[(0, 0)], [(0, 0)], [(0, 0)], [(0, 0)], [(2, 0)], [(2, 0)]⟩

/-- Fresh per-source state: no previous gain, empty tails. -/
def spZero : SpatialState := ⟨Vec3.zeroV, none, [], []⟩

/-- Witness for C6: a concrete full spatial render call runs to completion. -/
theorem c6_assert_iff_and_never_fires_in_render_witness :
    (∀ (fft2 ifft2 : List Cx → List Cx) (inB outB h2 : List Cx) (hl : Nat)
      (pv : List ℚ),
      convolve_overlap_save fft2 ifft2 inB outB h2 hl pv = ConvRes.assertFail
        ↔ h2.length ≠ inB.length)
    ∧ (render_source_spatial id id geomNoRay 1 1 sphereOnePoint [(1, 0)]
        ⟨0, 0, 0⟩ 3 rsOne spZero [(0, 0)]).isSome = true :=
  c6_assert_iff_and_never_fires_in_render id id geomNoRay 1 1 sphereOnePoint
    [(1, 0)] ⟨0, 0, 0⟩ 3 rsOne spZero [(0, 0)] (fun _ => rfl) (fun _ => rfl)
    (by decide) (by decide) (by decide) (by decide) (by decide) (by decide)

/-- C9: within one spatial render call, sub-block step (0-based; the claim's
1-indexed i is step + 1, t = i / N) adds to every output-frame slot of that
sub-block, on both channels, exactly convolvedSample * gain_i / padLength,
where gain_i interpolates linearly with parameter t between the source's
previous distance gain (or the newly computed gain when no previous one is
stored, so the first render has no ramp) and the newly computed gain; and
after all sub-blocks the source's previous sampling vector and previous gain
are set to the newly computed values. -/
theorem c9_subblock_mix_and_state_update (fft ifft : List Cx → List Cx)
    (g : Geom) (BL N : Nat) (sphere : HrtfSphere) (frame : List (ℚ × ℚ))
    (new_v : Vec3) (new_g : ℚ)
    (hfft : ∀ l : List Cx, (fft l).length = l.length)
    (hifft : ∀ l : List Cx, (ifft l).length = l.length)
    (hlen1 : 0 < sphere.length) :
    (∀ (rs : RenderState) (sp : SpatialState) (out_buf : List (ℚ × ℚ))
       (step : Nat) (lh rh : List Cx) (rs' : RenderState) (sp' : SpatialState)
       (out' : List (ℚ × ℚ)),
      (step + 1) * BL ≤ out_buf.length → step * BL ≤ frame.length →
      rs.left_in_buffer.length = BL + sphere.length - 1 →
      rs.right_in_buffer.length = BL + sphere.length - 1 →
      sample_bilinear g sphere rs.left_hrtf rs.right_hrtf
        (sp.prev_sampling_vector.lerp new_v ((step + 1 : ℚ) / (N : ℚ)))
        = some (lh, rh) →
      lh.length = BL + sphere.length - 1 → rh.length = BL + sphere.length - 1 →
      render_step fft ifft g BL N sphere frame new_v new_g (rs, sp, out_buf) step
        = some (rs', sp', out') →
      ∀ j, j < BL →
        out'[step * BL + j]? = (out_buf[step * BL + j]?).map (fun o =>
          (o.1 + (((conv_time fft ifft lh (sphere.length - 1) sp.prev_left_samples
              (refill (sphere.length - 1) rs.left_in_buffer
                (rawSrc frame BL step))).drop (sphere.length - 1)).getD j czero).1
            * lerpf (sp.prev_distance_gain.getD new_g) new_g ((step + 1 : ℚ) / (N : ℚ))
            / ((BL + sphere.length - 1 : Nat) : ℚ),
           o.2 + (((conv_time fft ifft rh (sphere.length - 1) sp.prev_right_samples
              (refill (sphere.length - 1) rs.right_in_buffer
                (rawSrc frame BL step))).drop (sphere.length - 1)).getD j czero).1
            * lerpf (sp.prev_distance_gain.getD new_g) new_g ((step + 1 : ℚ) / (N : ℚ))
            / ((BL + sphere.length - 1 : Nat) : ℚ))))
    ∧ (∀ (rs : RenderState) (sp : SpatialState) (out_buf : List (ℚ × ℚ))
       (rs' : RenderState) (sp' : SpatialState) (out' : List (ℚ × ℚ)),
      render_source_spatial fft ifft g BL N sphere frame new_v new_g rs sp out_buf
        = some (rs', sp', out') →
      sp'.prev_sampling_vector = new_v ∧ sp'.prev_distance_gain = some new_g) := by
  constructor
  · intro rs sp out_buf step lh rh rs' sp' out' hout2 hoff hlin hrin hsample hlh
      hrh hrender j hj
    rw [render_step_eq fft ifft g BL N sphere frame new_v new_g rs sp out_buf step
      lh rh hfft hifft hout2 hoff hsample hlin hrin hlh hrh] at hrender
    simp only [Option.some.injEq, Prod.mk.injEq] at hrender
    obtain ⟨-, -, hout'⟩ := hrender
    subst hout'
    have hmul : (step + 1) * BL = step * BL + BL := Nat.succ_mul step BL
    rw [hmul] at hout2
    have hlplen : ((conv_time fft ifft lh (sphere.length - 1) sp.prev_left_samples
        (refill (sphere.length - 1) rs.left_in_buffer
          (rawSrc frame BL step))).drop (sphere.length - 1)).length = BL := by
      rw [List.length_drop,
        conv_time_length _ _ _ _ _ _ hfft hifft
          (by rw [refill_length _ _ _ (by omega)]; omega),
        refill_length _ _ _ (by omega), hlin]
      omega
    have hrplen : ((conv_time fft ifft rh (sphere.length - 1) sp.prev_right_samples
        (refill (sphere.length - 1) rs.right_in_buffer
          (rawSrc frame BL step))).drop (sphere.length - 1)).length = BL := by
      rw [List.length_drop,
        conv_time_length _ _ _ _ _ _ hfft hifft
          (by rw [refill_length _ _ _ (by omega)]; omega),
        refill_length _ _ _ (by omega), hrin]
      omega
    have hpre : (out_buf.take (step * BL)).length = step * BL := by
      rw [List.length_take]
      omega
    have hslice : ((out_buf.take ((step + 1) * BL)).drop (step * BL)).length = BL := by
      rw [List.length_drop, List.length_take, hmul]
      omega
    have hmid : (addIntoOut ((out_buf.take ((step + 1) * BL)).drop (step * BL))
        ((conv_time fft ifft lh (sphere.length - 1) sp.prev_left_samples
          (refill (sphere.length - 1) rs.left_in_buffer
            (rawSrc frame BL step))).drop (sphere.length - 1))
        ((conv_time fft ifft rh (sphere.length - 1) sp.prev_right_samples
          (refill (sphere.length - 1) rs.right_in_buffer
            (rawSrc frame BL step))).drop (sphere.length - 1))
        (lerpf (sp.prev_distance_gain.getD new_g) new_g ((step + 1 : ℚ) / (N : ℚ))
          / ((BL + sphere.length - 1 : Nat) : ℚ))).length = BL := by
      rw [addIntoOut_length, hslice]
    rw [List.getElem?_append,
      if_pos (by rw [List.length_append, hpre, hmid]; omega)]
    rw [List.getElem?_append, hpre, if_neg (by omega)]
    have hidx : step * BL + j - step * BL = j := by omega
    rw [hidx]
    rw [addIntoOut, List.getElem?_append]
    rw [if_pos (by
      rw [List.length_zipWith, List.length_zip, hlplen, hrplen, hslice]
      simpa using hj)]
    rw [List.getElem?_zipWith]
    have hsl : ((out_buf.take ((step + 1) * BL)).drop (step * BL))[j]?
        = out_buf[step * BL + j]? := by
      rw [List.getElem?_drop, List.getElem?_take, if_pos (by rw [hmul]; omega)]
    obtain ⟨o, ho⟩ : ∃ o, out_buf[step * BL + j]? = some o :=
      ⟨_, List.getElem?_eq_getElem (by omega)⟩
    obtain ⟨lpj, hlpj⟩ : ∃ x, ((conv_time fft ifft lh (sphere.length - 1)
        sp.prev_left_samples (refill (sphere.length - 1) rs.left_in_buffer
          (rawSrc frame BL step))).drop (sphere.length - 1))[j]? = some x :=
      ⟨_, List.getElem?_eq_getElem (by rw [hlplen]; exact hj)⟩
    obtain ⟨rpj, hrpj⟩ : ∃ x, ((conv_time fft ifft rh (sphere.length - 1)
        sp.prev_right_samples (refill (sphere.length - 1) rs.right_in_buffer
          (rawSrc frame BL step))).drop (sphere.length - 1))[j]? = some x :=
      ⟨_, List.getElem?_eq_getElem (by rw [hrplen]; exact hj)⟩
    have hzipj : (((conv_time fft ifft lh (sphere.length - 1) sp.prev_left_samples
        (refill (sphere.length - 1) rs.left_in_buffer
          (rawSrc frame BL step))).drop (sphere.length - 1)).zip
        ((conv_time fft ifft rh (sphere.length - 1) sp.prev_right_samples
          (refill (sphere.length - 1) rs.right_in_buffer
            (rawSrc frame BL step))).drop (sphere.length - 1)))[j]?
        = some (lpj, rpj) := by
      show (List.zipWith Prod.mk _ _)[j]? = _
      rw [List.getElem?_zipWith, hlpj, hrpj]
    rw [hsl, ho, hzipj]
    have hgl : ((conv_time fft ifft lh (sphere.length - 1) sp.prev_left_samples
        (refill (sphere.length - 1) rs.left_in_buffer
          (rawSrc frame BL step))).drop (sphere.length - 1)).getD j czero = lpj := by
      rw [List.getD_eq_getElem?_getD, hlpj]
      rfl
    have hgr : ((conv_time fft ifft rh (sphere.length - 1) sp.prev_right_samples
        (refill (sphere.length - 1) rs.right_in_buffer
          (rawSrc frame BL step))).drop (sphere.length - 1)).getD j czero = rpj := by
      rw [List.getD_eq_getElem?_getD, hrpj]
      rfl
    rw [hgl, hgr]
    simp only [Option.map_some]
    congr 1
    rw [Prod.ext_iff]
    constructor
    · show o.1 + lpj.1 * (_ / _) = o.1 + lpj.1 * _ / _
      rw [mul_div_assoc]
    · show o.2 + rpj.1 * (_ / _) = o.2 + rpj.1 * _ / _
      rw [mul_div_assoc]
  · intro rs sp out_buf rs' sp' out' hfull
    unfold render_source_spatial at hfull
    cases hfold : (List.range N).foldlM
        (render_step fft ifft g BL N sphere frame new_v new_g)
        (rs, sp, out_buf) with
    | none =>
      rw [hfold] at hfull
      exact absurd hfull (by simp)
    | some res =>
      rw [hfold] at hfull
      simp only [Option.bind_eq_bind, Option.some_bind, Option.pure_def,
        Option.some.injEq, Prod.mk.injEq] at hfull
      obtain ⟨-, h2, -⟩ := hfull
      rw [← h2]
      exact ⟨rfl, rfl⟩

/-- Witness for C9: the concrete one-sub-block render: output slot 0 receives
its prior contents (0) plus convolvedSample 2 times gain 3 divided by pad 1,
on both channels. -/
theorem c9_subblock_mix_and_state_update_witness :
    (render_step id id geomNoRay 1 1 sphereOnePoint [(1, 0)] ⟨0, 0, 0⟩ 3
        (rsOne, spZero, [(0, 0)]) 0).bind (fun st => st.2.2[0 * 1 + 0]?)
      = some ((0 : ℚ) + 2 * 3 / 1, (0 : ℚ) + 2 * 3 / 1) := by
  have hsample : sample_bilinear geomNoRay sphereOnePoint rsOne.left_hrtf
      rsOne.right_hrtf
      (spZero.prev_sampling_vector.lerp ⟨0, 0, 0⟩ ((0 + 1 : ℚ) / (1 : ℚ)))
      = some ([(2, 0)], [(2, 0)]) := rfl
  have hrender := render_step_eq id id geomNoRay 1 1 sphereOnePoint [(1, 0)]
    ⟨0, 0, 0⟩ 3 rsOne spZero [(0, 0)] 0 [(2, 0)] [(2, 0)] (fun _ => rfl)
    (fun _ => rfl) (by decide) (by decide) hsample (by decide) (by decide)
    (by decide) (by decide)
  have hkey := (c9_subblock_mix_and_state_update id id geomNoRay 1 1
    sphereOnePoint [(1, 0)] ⟨0, 0, 0⟩ 3 (fun _ => rfl) (fun _ => rfl)
    (by decide)).1 rsOne spZero [(0, 0)] 0 [(2, 0)] [(2, 0)] _ _ _ (by decide)
    (by decide) (by decide) (by decide) hsample (by decide) (by decide) hrender
    0 (by decide)
  rw [hrender]
  simp only [Option.some_bind]
  rw [hkey]
  norm_num [conv_time, refill, rawSrc, fft_time_buffer, tail_or_zeros,
    spectral_multiply, overwriteBy, cmul, czero, lerpf, Prod.ext_iff,
    sphereOnePoint, rsOne, spZero, List.getD]

end RgSound
